import Mathlib

/-!
Verification of the comfyui-image-explorer / expression_preset_batch
parameter-sweep tooling.  The Python sources are embedded shallowly:

* JSON values (workflow graphs, the persisted exploration state) become the
  inductive `Json`; Python dicts become ordered association lists, matching
  Python's insertion-order semantics (updating an existing key keeps its
  position, a new key is appended).
* Python floats are modelled as rationals (`ℚ`); no verified claim depends
  on IEEE rounding.
* Code that can raise becomes `Except String`/`Option`-valued; the random
  module is modelled by explicit oracle parameters (an index oracle for
  `random.choice`, a rational in `[0,1)` for `random.choices`, a clock value
  for time-based seeds).
-/

/-- JSON values, as produced by `json.load`.  Numbers are modelled as
rationals.  Objects keep key order, matching Python dict semantics. -/
inductive Json where
  | null : Json
  | bool (b : Bool) : Json
  | num (q : ℚ) : Json
  | str (s : String) : Json
  | arr (xs : List Json) : Json
  | obj (kvs : List (String × Json)) : Json
deriving Repr

mutual

def Json.decEq : (a b : Json) → Decidable (a = b)
  | .null, .null => .isTrue rfl
  | .bool a, .bool b =>
    if h : a = b then .isTrue (by rw [h]) else .isFalse (fun hc => h (Json.bool.inj hc))
  | .num a, .num b =>
    if h : a = b then .isTrue (by rw [h]) else .isFalse (fun hc => h (Json.num.inj hc))
  | .str a, .str b =>
    if h : a = b then .isTrue (by rw [h]) else .isFalse (fun hc => h (Json.str.inj hc))
  | .arr xs, .arr ys =>
    match Json.decEqList xs ys with
    | .isTrue h => .isTrue (by rw [h])
    | .isFalse h => .isFalse (fun hc => h (Json.arr.inj hc))
  | .obj xs, .obj ys =>
    match Json.decEqKvs xs ys with
    | .isTrue h => .isTrue (by rw [h])
    | .isFalse h => .isFalse (fun hc => h (Json.obj.inj hc))
  | .null, .bool _ => .isFalse (fun h => nomatch h)
  | .null, .num _ => .isFalse (fun h => nomatch h)
  | .null, .str _ => .isFalse (fun h => nomatch h)
  | .null, .arr _ => .isFalse (fun h => nomatch h)
  | .null, .obj _ => .isFalse (fun h => nomatch h)
  | .bool _, .null => .isFalse (fun h => nomatch h)
  | .bool _, .num _ => .isFalse (fun h => nomatch h)
  | .bool _, .str _ => .isFalse (fun h => nomatch h)
  | .bool _, .arr _ => .isFalse (fun h => nomatch h)
  | .bool _, .obj _ => .isFalse (fun h => nomatch h)
  | .num _, .null => .isFalse (fun h => nomatch h)
  | .num _, .bool _ => .isFalse (fun h => nomatch h)
  | .num _, .str _ => .isFalse (fun h => nomatch h)
  | .num _, .arr _ => .isFalse (fun h => nomatch h)
  | .num _, .obj _ => .isFalse (fun h => nomatch h)
  | .str _, .null => .isFalse (fun h => nomatch h)
  | .str _, .bool _ => .isFalse (fun h => nomatch h)
  | .str _, .num _ => .isFalse (fun h => nomatch h)
  | .str _, .arr _ => .isFalse (fun h => nomatch h)
  | .str _, .obj _ => .isFalse (fun h => nomatch h)
  | .arr _, .null => .isFalse (fun h => nomatch h)
  | .arr _, .bool _ => .isFalse (fun h => nomatch h)
  | .arr _, .num _ => .isFalse (fun h => nomatch h)
  | .arr _, .str _ => .isFalse (fun h => nomatch h)
  | .arr _, .obj _ => .isFalse (fun h => nomatch h)
  | .obj _, .null => .isFalse (fun h => nomatch h)
  | .obj _, .bool _ => .isFalse (fun h => nomatch h)
  | .obj _, .num _ => .isFalse (fun h => nomatch h)
  | .obj _, .str _ => .isFalse (fun h => nomatch h)
  | .obj _, .arr _ => .isFalse (fun h => nomatch h)

def Json.decEqList : (xs ys : List Json) → Decidable (xs = ys)
  | [], [] => .isTrue rfl
  | [], _ :: _ => .isFalse (fun h => nomatch h)
  | _ :: _, [] => .isFalse (fun h => nomatch h)
  | x :: xs, y :: ys =>
    match Json.decEq x y with
    | .isFalse h => .isFalse (by intro hc; injection hc with h1 h2; exact h h1)
    | .isTrue h1 =>
      match Json.decEqList xs ys with
      | .isTrue h2 => .isTrue (by rw [h1, h2])
      | .isFalse h => .isFalse (by intro hc; injection hc with ha hb; exact h hb)

def Json.decEqKvs : (xs ys : List (String × Json)) → Decidable (xs = ys)
  | [], [] => .isTrue rfl
  | [], _ :: _ => .isFalse (fun h => nomatch h)
  | _ :: _, [] => .isFalse (fun h => nomatch h)
  | (k, v) :: xs, (k', v') :: ys =>
    if hk : k = k' then
      match Json.decEq v v' with
      | .isFalse h =>
        .isFalse (by intro hc; injection hc with h1 h2; exact h (congrArg Prod.snd h1))
      | .isTrue hv =>
        match Json.decEqKvs xs ys with
        | .isTrue h2 => .isTrue (by rw [hk, hv, h2])
        | .isFalse h => .isFalse (by intro hc; injection hc with ha hb; exact h hb)
    else
      .isFalse (by intro hc; injection hc with h1 h2; exact hk (congrArg Prod.fst h1))

end

instance : DecidableEq Json := Json.decEq

instance {e a : Type} [DecidableEq e] [DecidableEq a] :
    DecidableEq (Except e a) := fun x y =>
  match x, y with
  | .ok v, .ok w =>
    if h : v = w then .isTrue (by rw [h])
    else .isFalse (fun hc => h (by injection hc))
  | .error v, .error w =>
    if h : v = w then .isTrue (by rw [h])
    else .isFalse (fun hc => h (by injection hc))
  | .ok _, .error _ => .isFalse (fun h => nomatch h)
  | .error _, .ok _ => .isFalse (fun h => nomatch h)

/-- `d[k]` / `k in d` lookup on an association list (Python dict read). -/
def lookupKey : List (String × Json) → String → Option Json
  | [], _ => none
  | (k', v) :: rest, k => if k' = k then some v else lookupKey rest k

/-- `d[k] = v` on an association list: an existing key is updated in place
(keeping its position), a new key is appended — Python dict semantics. -/
def setKey : List (String × Json) → String → Json → List (String × Json)
  | [], k, v => [(k, v)]
  | (k', v') :: rest, k, v =>
    if k' = k then (k, v) :: rest else (k', v') :: setKey rest k v

/-- Generic association-list lookup (Python dict read) for non-`Json` values. -/
def lookupA {β : Type} : List (String × β) → String → Option β
  | [], _ => none
  | (k', v) :: rest, k => if k' = k then some v else lookupA rest k

/-- Generic association-list update (Python dict write) for non-`Json` values. -/
def setA {β : Type} : List (String × β) → String → β → List (String × β)
  | [], k, v => [(k, v)]
  | (k', v') :: rest, k, v =>
    if k' = k then (k, v) :: rest else (k', v') :: setA rest k v

/-- A Python `for` loop collecting `f a` for each element, where `f` can raise:
the first `none` aborts the whole computation (exception propagation). -/
def mapOpt {α β : Type} (f : α → Option β) : List α → Option (List β)
  | [] => some []
  | a :: as =>
    match f a, mapOpt f as with
    | some b, some bs => some (b :: bs)
    | _, _ => none

/-- Concatenation of a list of lists (flattening nested generator loops). -/
def joinL {α : Type} : List (List α) → List α
  | [] => []
  | l :: ls => l ++ joinL ls

/-- `[y for a in l for y in f a]`, the shape of Python nested loops. -/
def flatMapL {α β : Type} (f : α → List β) : List α → List β
  | [] => []
  | a :: as => f a ++ flatMapL f as

/-- One step of `itertools.product`: every element of `l` consed onto every
tuple of `rest`, outer loop over `l` first (itertools ordering). -/
def prodCons {α : Type} (l : List α) (rest : List (List α)) : List (List α) :=
  match l with
  | [] => []
  | x :: xs => rest.map (fun r => x :: r) ++ prodCons xs rest

/-- `itertools.product(*lists)` for a homogeneous list of lists. -/
def listProd {α : Type} : List (List α) → List (List α)
  | [] => [[]]
  | l :: ls => prodCons l (listProd ls)

/-- Python `str` whitespace predicate for `str.strip()` (ASCII range). -/
def pyIsSpace (c : Char) : Bool :=
  c = ' ' || c = '\t' || c = '\n' || c = '\r' || c = '\x0B' || c = '\x0C'

/-- Python `s.strip()`: remove leading and trailing whitespace. -/
def pyStrip (s : String) : String :=
  String.mk (((s.toList.dropWhile pyIsSpace).reverse.dropWhile pyIsSpace).reverse)

/-- Python `s.strip(chars)`: remove leading/trailing characters in `chars`. -/
def pyStripChars (chars : List Char) (cs : List Char) : List Char :=
  ((cs.dropWhile (fun c => chars.contains c)).reverse.dropWhile
    (fun c => chars.contains c)).reverse

/-- Python `s.rstrip(c)` on a character list. -/
def stripTrailing (c : Char) (cs : List Char) : List Char :=
  (cs.reverse.dropWhile (fun d => d = c)).reverse

/-- Code-point lexicographic `≤` on character lists (Python string order). -/
def charListLe : List Char → List Char → Bool
  | [], _ => true
  | _ :: _, [] => false
  | c :: cs, d :: ds => if c = d then charListLe cs ds else decide (c < d)

/-- Python `a <= b` on strings. -/
def strLeB (a b : String) : Bool := charListLe a.toList b.toList

/-- Python `s.endswith(suffix)`. -/
def strEndsWith (s suffix : String) : Bool :=
  let sl := s.toList
  let fl := suffix.toList
  if fl.length ≤ sl.length then decide (sl.drop (sl.length - fl.length) = fl)
  else false

/-- `needle` is an initial segment of `hay` (helper for substring test). -/
def isPrefB : List Char → List Char → Bool
  | [], _ => true
  | _ :: _, [] => false
  | a :: as, b :: bs => a = b && isPrefB as bs

/-- Python `needle in hay` on strings (substring containment). -/
def containsSubB (needle : List Char) : List Char → Bool
  | [] => needle.isEmpty
  | c :: rest => isPrefB needle (c :: rest) || containsSubB needle rest

/-! ## utils.py — random selection, prompt joining, filenames, seeds -/

/-- Index selected by `random.choices`' bisect over cumulative weights:
first `i` with `x < w₀ + … + wᵢ` (off the end when `x` exceeds the total). -/
def wIdx : List ℚ → ℚ → Nat
  | [], _ => 0
  | w :: rest, x => if x < w then 0 else wIdx rest (x - w) + 1

/-- `random.choices(values, weights=weights, k=1)[0]`.  `r ∈ [0,1)` is the
oracle for `random.random()`.  Mirrors CPython: a length-mismatch raises, an
empty population raises (`cum_weights[-1]`), a non-positive total raises
`ValueError`, otherwise the bisect result is capped at `len - 1`. -/
def pyRandomChoices1 (values : List String) (weights : List ℚ) (r : ℚ) :
    Except String String :=
  if values.length ≠ weights.length then
    .error "ValueError: The number of weights does not match the population"
  else
    match values with
    | [] => .error "IndexError: list index out of range"
    | v :: _ =>
      let total := weights.sum
      if total ≤ 0 then .error "ValueError: Total of weights must be greater than zero"
      else .ok (values.getD (min (wIdx weights (r * total)) (values.length - 1)) v)

/-- `utils.weighted_choice(items)`: empty list returns `""`; all-zero weights
fall back to `random.choice` (uniform, index oracle `rIdx`); otherwise a
weighted draw via `random.choices` (oracle `r`). -/
def weighted_choice (items : List (String × ℚ)) (rIdx : Nat) (r : ℚ) :
    Except String String :=
  match items with
  | [] => .ok ""
  | _ :: _ =>
    let values := items.map Prod.fst
    let weights := items.map Prod.snd
    if weights.all (fun w => decide (w = 0)) then
      .ok (values.getD (rIdx % values.length) "")
    else
      pyRandomChoices1 values weights r

/-- The script-local `weighted_choice` of `prompt_explorer.py`: calls
`random.choices` directly, with no empty-list and no all-zero-weight guard. -/
def pe_weighted_choice (items : List (String × ℚ)) (r : ℚ) :
    Except String String :=
  pyRandomChoices1 (items.map Prod.fst) (items.map Prod.snd) r

/-- One entry of an axis choice list: a plain string or a `WeightedPrompt`
dataclass (text + weight). -/
inductive ChoiceVal where
  | s (v : String) : ChoiceVal
  | wp (text : String) (weight : ℚ) : ChoiceVal
deriving DecidableEq, Repr

/-- The prompt text carried by a choice (`c.text if WeightedPrompt else c`). -/
def choiceText : ChoiceVal → String
  | .s v => v
  | .wp t _ => t

/-- `utils.pick_from_choices(choices)` as called on `str | WeightedPrompt`
lists: the `isinstance(first, tuple)` branch is never taken (a
`WeightedPrompt` is not a tuple), so this is `random.choice` — a uniform
draw through the index oracle `rIdx` — and `""` on an empty list. -/
def pick_from_choices (choices : List ChoiceVal) (rIdx : Nat) : ChoiceVal :=
  match choices with
  | [] => .s ""
  | c :: _ => choices.getD (rIdx % choices.length) c

/-- `utils.join_prompts(prompts)`: keep `p.strip()` for entries whose
stripped form is non-empty (Python truthiness), join with `", "`. -/
def join_prompts (prompts : List String) : String :=
  String.intercalate ", "
    (prompts.filterMap (fun p =>
      let t := pyStrip p
      if t = "" then none else some t))

/-- Special characters `utils.safe_filename` replaces by `_`. -/
def safeSpecials : List Char := ['/', '\\', ':', '*', '?', '"', '<', '>', '|']

/-- The `while "__" in safe` loop of `safe_filename`: its fixpoint collapses
every run of underscores to a single one. -/
def collapseUnderscores : List Char → List Char
  | [] => []
  | '_' :: '_' :: rest => collapseUnderscores ('_' :: rest)
  | c :: rest => c :: collapseUnderscores rest
termination_by cs => cs.length

/-- `utils.safe_filename(text, max_length)`: replace special characters with
`_`, collapse repeated `_`, strip `"_ "` from both ends, truncate. -/
def safe_filename (text : String) (max_length : Nat) : String :=
  String.mk ((pyStripChars ['_', ' ']
    (collapseUnderscores
      (text.toList.map (fun c => if safeSpecials.contains c then '_' else c)))).take
    max_length)

/-- `utils.generate_seed()`: milliseconds clock modulo 2 000 000 000; the
clock reading is the explicit `msClock` oracle. -/
def generate_seed (msClock : Int) : Int := msClock % 2000000000

/-! ## Data models

`prompt_builder.py` imports these from `comfytools.core_models`, whose file
is not present in the tree; the sibling `models.py` (present) defines the
same classes, and the spec states their invariants.  The dataclasses below
follow `models.py`; the `__post_init__` validations become `mk…` smart
constructors returning `Option` (a `None` models the raised `ValueError`). -/

/-- `PromptAxis`: one sweep dimension. -/
structure PromptAxis where
  name : String
  choices : List ChoiceVal
deriving DecidableEq, Repr

/-- `PromptAxis.get_all_values`: every choice's value, weights dropped. -/
def PromptAxis.get_all_values (a : PromptAxis) : List String :=
  a.choices.map choiceText

/-- `PromptTemplate`: fixed positive parts, axes, negative parts. -/
structure PromptTemplate where
  fixed_positive : List String
  axes : List PromptAxis
  negative : List String
deriving DecidableEq, Repr

/-- `PromptTemplate.get_axis_by_name`: first axis with the given name;
`none` models the raised `ValueError` when no axis matches. -/
def PromptTemplate.get_axis_by_name (t : PromptTemplate) (name : String) :
    Option PromptAxis :=
  t.axes.find? (fun ax => ax.name == name)

/-- `SamplerConfig` (KSampler settings). -/
structure SamplerConfig where
  steps : Int
  cfg : ℚ
  sampler_name : String
  scheduler : String
  seed : Int
deriving DecidableEq, Repr

/-- `SamplerConfig.__post_init__`: `steps` and `cfg` must be positive. -/
def mkSamplerConfig (steps : Int) (cfg : ℚ) (sampler_name scheduler : String)
    (seed : Int) : Option SamplerConfig :=
  if steps ≤ 0 then none
  else if cfg ≤ 0 then none
  else some ⟨steps, cfg, sampler_name, scheduler, seed⟩

/-- `LoraConfig`. -/
structure LoraConfig where
  name : String
  model_strength : ℚ
  clip_strength : ℚ
deriving DecidableEq, Repr

/-- `LoraConfig.__post_init__`: the name must end in `.safetensors`. -/
def mkLoraConfig (name : String) (model_strength clip_strength : ℚ) :
    Option LoraConfig :=
  if strEndsWith name ".safetensors" then
    some ⟨name, model_strength, clip_strength⟩
  else none

/-- `GenerationParams`: everything one generation needs.  The per-axis
chosen values (`prompt_values`) keep dict insertion order. -/
structure GenerationParams where
  positive_prompt : String
  negative_prompt : String
  sampler : SamplerConfig
  lora : LoraConfig
  target_axis_name : String
  prompt_values : List (String × String)
deriving DecidableEq, Repr

/-! ## prompt_builder.py — PromptBuilder and ParameterCombinationGenerator -/

/-- `PromptBuilder` state: the template and the randomize flag. -/
structure PromptBuilder where
  template : PromptTemplate
  randomize_non_target : Bool
deriving Repr

/-- `PromptBuilder.get_axis_choices(axis_name, is_target)`.  `none` models a
raised exception (`ValueError` from `get_axis_by_name`, or the `IndexError`
of `[0]` on an empty choice list).  `r` is the oracle consumed by the
non-target random draw. -/
def get_axis_choices (pb : PromptBuilder) (axis_name : String)
    (is_target : Bool) (r : Nat) : Option (List String) :=
  match pb.template.get_axis_by_name axis_name with
  | none => none
  | some axis =>
    if is_target then some axis.get_all_values
    else if pb.randomize_non_target then
      match pick_from_choices axis.choices r with
      | .wp t _ => some [t]
      | .s v => some [v]
    else
      match axis.get_all_values with
      | [] => none
      | v :: _ => some [v]

/-- `dict(zip(names, combo))`: later duplicate keys overwrite earlier ones,
insertion order kept. -/
def comboDict (names : List String) (combo : List String) :
    List (String × String) :=
  (names.zip combo).foldl (fun m kv => setA m kv.1 kv.2) []

/-- The `for axis in self.template.axes` loop of `create_axis_combinations`:
the `(axis.name, choices)` entries in visit order, aborting on the first
exception.  `rs i` is the random oracle for the draw made while visiting
the `i`-th axis. -/
def axisPairs (pb : PromptBuilder) (target : String) (rs : Nat → Nat) :
    Nat → List PromptAxis → Option (List (String × List String))
  | _, [] => some []
  | i, ax :: rest =>
    match get_axis_choices pb ax.name (decide (ax.name = target)) (rs i) with
    | none => none
    | some cs =>
      match axisPairs pb target rs (i + 1) rest with
      | none => none
      | some ps => some ((ax.name, cs) :: ps)

/-- `PromptBuilder.create_axis_combinations(target)`: per-axis choice lists
collected into the name-keyed dict `axis_choices_map`, then the itertools
product over `[axis_choices_map[name] for name in axis_names]`, each tuple
zipped back into a per-combination dict. -/
def create_axis_combinations (pb : PromptBuilder) (target : String)
    (rs : Nat → Nat) : Option (List (List (String × String))) :=
  let axes := pb.template.axes
  match axisPairs pb target rs 0 axes with
  | none => none
  | some pairs =>
    let cmap := pairs.foldl (fun m nc => setA m nc.1 nc.2) []
    let names := axes.map (fun ax => ax.name)
    match mapOpt (fun n => lookupA cmap n) names with
    | none => none
    | some lists =>
      some ((listProd lists).map (fun combo => comboDict names combo))

/-- `PromptBuilder.build_positive_prompt`: fixed parts then the dict's
values, joined. -/
def build_positive_prompt (pb : PromptBuilder)
    (axis_values : List (String × String)) : String :=
  join_prompts (pb.template.fixed_positive ++ axis_values.map Prod.snd)

/-- `PromptBuilder.build_negative_prompt`. -/
def build_negative_prompt (pb : PromptBuilder) : String :=
  join_prompts pb.template.negative

/-- Sampler choice lists (`sampler_choices["steps"]`, …). -/
structure SamplerChoices where
  steps : List Int
  cfg : List ℚ
  sampler_name : List String
  scheduler : List String
deriving Repr

/-- LoRA choice lists (`lora_choices["names"]`, …). -/
structure LoraChoices where
  names : List String
  model_strength : List ℚ
  clip_strength : List ℚ
deriving Repr

/-- `itertools.product(steps, cfg, sampler_name, scheduler)`. -/
def samplerCombos (sc : SamplerChoices) : List (Int × ℚ × String × String) :=
  flatMapL (fun st =>
    flatMapL (fun c =>
      flatMapL (fun sn =>
        sc.scheduler.map (fun sch => (st, c, sn, sch)))
        sc.sampler_name)
      sc.cfg)
    sc.steps

/-- `itertools.product(names, model_strength, clip_strength)`. -/
def loraCombos (lc : LoraChoices) : List (String × ℚ × ℚ) :=
  flatMapL (fun n =>
    flatMapL (fun ms =>
      lc.clip_strength.map (fun cs => (n, ms, cs)))
      lc.model_strength)
    lc.names

/-- `ParameterCombinationGenerator.generate_combinations(target)`: the three
nested loops of the generator, flattened into the yielded list.  `none`
models an exception escaping the generator (a failed axis lookup or a
dataclass validation error). -/
def generate_combinations (pb : PromptBuilder) (sc : SamplerChoices)
    (lc : LoraChoices) (target : String) (rs : Nat → Nat) :
    Option (List GenerationParams) :=
  match create_axis_combinations pb target rs with
  | none => none
  | some axisCombos =>
    let sCombos := samplerCombos sc
    let lCombos := loraCombos lc
    match mapOpt (fun av =>
        let positive := build_positive_prompt pb av
        let negative := build_negative_prompt pb
        mapOpt (fun s4 =>
          mapOpt (fun l3 =>
            match mkSamplerConfig s4.1 s4.2.1 s4.2.2.1 s4.2.2.2 0 with
            | none => none
            | some samp =>
              match mkLoraConfig l3.1 l3.2.1 l3.2.2 with
              | none => none
              | some lora =>
                some (GenerationParams.mk positive negative samp lora target av))
            lCombos)
          sCombos)
        axisCombos with
    | none => none
    | some nested => some (joinL (nested.map (fun x => joinL x)))

/-- `ParameterCombinationGenerator.count_combinations(target)`: closed-form
product, re-running `create_axis_combinations` (oracle `rs`). -/
def count_combinations (pb : PromptBuilder) (sc : SamplerChoices)
    (lc : LoraChoices) (target : String) (rs : Nat → Nat) : Option Nat :=
  match create_axis_combinations pb target rs with
  | none => none
  | some axisCombos =>
    some (axisCombos.length *
      (sc.steps.length * sc.cfg.length * sc.sampler_name.length *
        sc.scheduler.length) *
      (lc.names.length * lc.model_strength.length * lc.clip_strength.length))

/-! ## state_manager.py — StateManager -/

/-- The in-memory `_used_axes` set: a duplicate-free list of the Python
set's elements (membership is the set semantics; loaded file contents may
put non-string values in, hence `Json` elements). -/
abbrev UsedAxes := List Json

/-- `StateManager.mark_as_used(axis_name)` on the in-memory set: add if
absent (an already-present name only logs a warning). -/
def mark_as_used (used : UsedAxes) (axis_name : String) : UsedAxes :=
  if Json.str axis_name ∈ used then used else used ++ [Json.str axis_name]

/-- `sorted(self._used_axes)`: Python sorts strings by code point; a
non-string element makes the comparison raise `TypeError` (the state
manager itself only ever inserts strings). -/
def sortJsonStrings (xs : List Json) : Except String (List Json) :=
  match mapOpt (fun j => match j with | Json.str s => some s | _ => none) xs with
  | none => .error "TypeError: '<' not supported between instances"
  | some ss =>
    .ok ((List.insertionSort (fun a b => strLeB a b = true) ss).map Json.str)

/-- `StateManager._save()`: the JSON document written to the state file
(version tag, sorted used-axes list, timestamp, count).  The filesystem
write itself is outside the model; `timestamp` is the clock oracle. -/
def state_save (used : UsedAxes) (timestamp : String) : Except String Json :=
  match sortJsonStrings used with
  | .error e => .error e
  | .ok sorted =>
    .ok (Json.obj [("version", Json.str "1.0"),
                   ("used_axes", Json.arr sorted),
                   ("last_updated", Json.str timestamp),
                   ("total_used", Json.num used.length)])

/-- What the state file held when `_load` ran: absent, present but not
JSON-decodable, or decoded to a JSON value. -/
inductive StateFile where
  | missing : StateFile
  | unparseable : StateFile
  | decoded (j : Json) : StateFile

/-- Python `set(x)` on a JSON value: arrays give the set of their elements
(raising `TypeError` on unhashable list/dict elements), strings give their
characters, dicts give their keys, scalars raise `TypeError`. -/
def pySetOf (j : Json) : Except String UsedAxes :=
  match j with
  | .arr xs =>
    if xs.all (fun x => match x with | .arr _ => false | .obj _ => false | _ => true)
    then .ok xs.dedup
    else .error "TypeError: unhashable type"
  | .str s => .ok ((s.toList.map (fun c => Json.str (String.mk [c]))).dedup)
  | .obj kvs => .ok ((kvs.map (fun kv => Json.str kv.1)).dedup)
  | _ => .error "TypeError: object is not iterable"

/-- `StateManager._load()`: a missing file and a `json.JSONDecodeError` are
caught (empty set); any other exception — e.g. the `AttributeError` of
`data.get` when the decoded root is not an object, or a `TypeError` from
`set(...)` — is logged and re-raised (`except Exception: … raise`). -/
def state_load (f : StateFile) : Except String UsedAxes :=
  match f with
  | .missing => .ok []
  | .unparseable => .ok []
  | .decoded j =>
    match j with
    | .obj kvs => pySetOf ((lookupKey kvs "used_axes").getD (Json.arr []))
    | _ => .error "AttributeError: object has no attribute get"

/-- `StateManager.get_remaining_axes(all_axis_names)`: input order kept,
used names dropped. -/
def get_remaining_axes (used : UsedAxes) (all_axis_names : List String) :
    List String :=
  all_axis_names.filter (fun n => !decide (Json.str n ∈ used))

/-! ## image_explorer/config/workflow.py — WorkflowManager

These setters have **no** link check: they assign into `inputs`
unconditionally.  Dynamic typing makes some shapes raise, which
`Except String` captures:

* node id absent → log and skip (`.ok` unchanged);
* `"inputs" not in node` on a non-dict node follows the Python `in`
  operator (dict keys, list membership, substring for strings, `TypeError`
  for scalars);
* `node["inputs"][k] = v` on a non-dict raises `TypeError`.
-/

/-- The graph: node-id keyed dict of node descriptions. -/
abbrev Workflow := List (String × Json)

/-- `value at workflow[node_id]["inputs"][key]`, when that path exists. -/
def lookupInput (wf : Workflow) (node_id key : String) : Option Json :=
  match lookupKey wf node_id with
  | some (.obj fields) =>
    match lookupKey fields "inputs" with
    | some (.obj ins) => lookupKey ins key
    | _ => none
  | _ => none

/-- Python `"inputs" in node` for an arbitrary JSON node value. -/
def pyHasInputsKey (node : Json) : Except String Bool :=
  match node with
  | .obj kvs => .ok (lookupKey kvs "inputs").isSome
  | .arr xs => .ok (decide (Json.str "inputs" ∈ xs))
  | .str s => .ok (containsSubB "inputs".toList s.toList)
  | _ => .error "TypeError: argument of type is not iterable"

/-- The shared body of the `WorkflowManager` setters: guard on node
presence and on `"inputs"`, then perform each `inputs[k] = v` assignment in
sequence with **no** link check. -/
def ieSetInputs (wf : Workflow) (node_id : String)
    (assigns : List (String × Json)) : Except String Workflow :=
  match lookupKey wf node_id with
  | none => .ok wf
  | some node =>
    match pyHasInputsKey node with
    | .error e => .error e
    | .ok has =>
      if !has then .ok wf
      else
        match node with
        | .obj fields =>
          match lookupKey fields "inputs" with
          | some (.obj ins) =>
            .ok (setKey wf node_id (Json.obj (setKey fields "inputs"
              (Json.obj (assigns.foldl (fun m kv => setKey m kv.1 kv.2) ins)))))
          | some _ => .error "TypeError: item assignment on non-dict inputs"
          | none => .ok wf
        | _ => .error "TypeError: indexing a non-dict node"

/-- `WorkflowManager._set_prompt`: `inputs["text"] = prompt_text`. -/
def ie_set_prompt (wf : Workflow) (node_id text : String) :
    Except String Workflow :=
  ieSetInputs wf node_id [("text", Json.str text)]

/-- `WorkflowManager._set_sampler`: steps, cfg, sampler_name, scheduler and
seed assigned in that order, unconditionally. -/
def ie_set_sampler (wf : Workflow) (node_id : String) (s : SamplerConfig) :
    Except String Workflow :=
  ieSetInputs wf node_id
    [("steps", Json.num s.steps), ("cfg", Json.num s.cfg),
     ("sampler_name", Json.str s.sampler_name),
     ("scheduler", Json.str s.scheduler), ("seed", Json.num s.seed)]

/-- `WorkflowManager._set_lora`. -/
def ie_set_lora (wf : Workflow) (node_id : String) (l : LoraConfig) :
    Except String Workflow :=
  ieSetInputs wf node_id
    [("lora_name", Json.str l.name), ("strength_model", Json.num l.model_strength),
     ("strength_clip", Json.num l.clip_strength)]

/-- Node-id bindings of the active configuration (`NodeMapping`). -/
structure IeNodeMapping where
  positive_prompt : String
  negative_prompt : String
  ksampler : String
  lora : String
  save_image : String
deriving Repr

/-- `WorkflowManager` state: the base graph loaded at construction and the
node mapping.  The graph is stored once and only ever copied. -/
structure IeWorkflowManager where
  base_workflow : Workflow
  node_mapping : IeNodeMapping
deriving Repr

/-- `WorkflowManager.get_base_workflow()`: `copy.deepcopy` of the stored
graph — in the value semantics of the embedding, the value itself; every
later assignment builds a new value, never touching `base_workflow`. -/
def ie_get_base_workflow (m : IeWorkflowManager) : Workflow :=
  m.base_workflow

/-- `WorkflowManager.set_filename_prefix(workflow, prefix)`. -/
def ie_set_filename_pref (m : IeWorkflowManager) (wf : Workflow)
    (pref : String) : Except String Workflow :=
  ieSetInputs wf m.node_mapping.save_image [("filename_prefix", Json.str pref)]

/-- `WorkflowManager.apply_params(workflow, params)`: both prompts, the
sampler and the LoRA node, in source order. -/
def ie_apply_params (m : IeWorkflowManager) (wf : Workflow)
    (p : GenerationParams) : Except String Workflow :=
  match ie_set_prompt wf m.node_mapping.positive_prompt p.positive_prompt with
  | .error e => .error e
  | .ok wf1 =>
    match ie_set_prompt wf1 m.node_mapping.negative_prompt p.negative_prompt with
    | .error e => .error e
    | .ok wf2 =>
      match ie_set_sampler wf2 m.node_mapping.ksampler p.sampler with
      | .error e => .error e
      | .ok wf3 => ie_set_lora wf3 m.node_mapping.lora p.lora

/-- `WorkflowManager.create_configured_workflow(params)`: fresh deep copy of
the base graph, then `apply_params` on the copy. -/
def ie_create_configured_workflow (m : IeWorkflowManager)
    (p : GenerationParams) : Except String Workflow :=
  ie_apply_params m (ie_get_base_workflow m) p

/-- A session of repeated `create_configured_workflow` calls, threading the
manager explicitly: each call works on its own deep copy, so the manager
state passed along is the one the call received. -/
def ieRunConfigured (m : IeWorkflowManager) (ps : List GenerationParams) :
    IeWorkflowManager × List (Except String Workflow) :=
  match ps with
  | [] => (m, [])
  | p :: rest =>
    let w := ie_create_configured_workflow m p
    let (m', ws) := ieRunConfigured m rest
    (m', w :: ws)

/-! ## expression_preset_batch/config/workflow.py — EPBWorkflowManager

Every setter here guards link-references: an `inputs[...]` value that is a
list is never overwritten (warn and skip). -/

/-- `ExpressionPresetNodeMapping`. -/
structure EpbMapping where
  node_id : String
  expression_input_name : String
deriving Repr

/-- The EPB sampler parameters.  Modelled from the spec: the
`SamplerParams` dataclass imported from `expression_preset_batch.models` is
absent from the tree; the spec's SamplerParams plus the `denoise` field the
manager assigns gives its shape. -/
structure EpbSamplerParams where
  steps : Int
  cfg : ℚ
  denoise : ℚ
  sampler_name : String
  scheduler : String
deriving Repr

/-- `EPBWorkflowManager` configuration plus the loaded base graph. -/
structure EpbWorkflowManager where
  base_workflow : Workflow
  expression_node : EpbMapping
  input_image_node_id : String
  input_image_input_name : String
  save_image_node_id : Option String
  seed_node_id : Option String
  seed_input_name : String
  sampler_node_id : Option String
  steps_input_name : String
  cfg_input_name : String
  denoise_input_name : String
  sampler_name_input_name : String
  scheduler_input_name : String
deriving Repr

/-- `EPBWorkflowManager.get_node_info`: `None` when the id is absent or the
node is not a dict (both only warn). -/
def epbGetNodeInfo (wf : Workflow) (node_id : String) :
    Option (List (String × Json)) :=
  match lookupKey wf node_id with
  | some (.obj fields) => some fields
  | _ => none

/-- The shared shape of the EPB single-input setters: resolve the node, require
a dict `inputs`, skip when the current value is a list (link), else assign. -/
def epbGuardedAssign (wf : Workflow) (node_id key : String) (v : Json) :
    Workflow :=
  match epbGetNodeInfo wf node_id with
  | none => wf
  | some fields =>
    match lookupKey fields "inputs" with
    | some (.obj ins) =>
      match lookupKey ins key with
      | some (.arr _) => wf
      | _ => setKey wf node_id (Json.obj (setKey fields "inputs"
          (Json.obj (setKey ins key v))))
    | _ => wf

/-- Python falsiness of an optional node id (`if not self.x: return`):
`None` and `""` are falsy. -/
def optNodeId : Option String → Option String
  | some "" => none
  | o => o

/-- `EPBWorkflowManager.apply_expression(workflow, expression)`. -/
def epb_apply_expression (m : EpbWorkflowManager) (wf : Workflow)
    (expression : String) : Workflow :=
  epbGuardedAssign wf m.expression_node.node_id
    m.expression_node.expression_input_name (Json.str expression)

/-- `EPBWorkflowManager.set_input_image_filename(workflow, filename)`. -/
def epb_set_input_image (m : EpbWorkflowManager) (wf : Workflow)
    (filename : String) : Workflow :=
  epbGuardedAssign wf m.input_image_node_id m.input_image_input_name
    (Json.str filename)

/-- `EPBWorkflowManager.set_seed(workflow, seed)`. -/
def epb_set_seed (m : EpbWorkflowManager) (wf : Workflow) (seed : Int) :
    Workflow :=
  match optNodeId m.seed_node_id with
  | none => wf
  | some nid => epbGuardedAssign wf nid m.seed_input_name (Json.num seed)

/-- `EPBWorkflowManager.set_filename_prefix(workflow, prefix)`. -/
def epb_set_filename_pref (m : EpbWorkflowManager) (wf : Workflow)
    (pref : String) : Workflow :=
  match optNodeId m.save_image_node_id with
  | none => wf
  | some nid => epbGuardedAssign wf nid "filename_prefix" (Json.str pref)

/-- The inner `_set(key, value)` closure of `apply_sampler_params`: skip if
the current value is a list, else assign into the (shared) `inputs` dict. -/
def guardedInsSet (ins : List (String × Json)) (key : String) (v : Json) :
    List (String × Json) :=
  match lookupKey ins key with
  | some (.arr _) => ins
  | _ => setKey ins key v

/-- `EPBWorkflowManager.apply_sampler_params(workflow, sp)`: the five
`_set` calls mutate the same `inputs` dict in sequence. -/
def epb_apply_sampler_params (m : EpbWorkflowManager) (wf : Workflow)
    (sp : EpbSamplerParams) : Workflow :=
  match optNodeId m.sampler_node_id with
  | none => wf
  | some nid =>
    match lookupKey wf nid with
    | some (.obj fields) =>
      match lookupKey fields "inputs" with
      | some (.obj ins) =>
        let ins1 := guardedInsSet ins m.steps_input_name (Json.num sp.steps)
        let ins2 := guardedInsSet ins1 m.cfg_input_name (Json.num sp.cfg)
        let ins3 := guardedInsSet ins2 m.denoise_input_name (Json.num sp.denoise)
        let ins4 := guardedInsSet ins3 m.sampler_name_input_name
          (Json.str sp.sampler_name)
        let ins5 := guardedInsSet ins4 m.scheduler_input_name
          (Json.str sp.scheduler)
        setKey wf nid (Json.obj (setKey fields "inputs" (Json.obj ins5)))
      | _ => wf
    | _ => wf

/-- The EPB `GenerationParams` dataclass (run metadata; the construction-time
validation of `__post_init__` plays no role in the workflow claims). -/
structure EpbGenerationParams where
  expression : String
  seed : Int
  filename_pref : String
  sampler : Option EpbSamplerParams
deriving Repr

/-- `EPBWorkflowManager.get_base_workflow()`: deep copy of the stored base
graph (the value itself in the embedding). -/
def epb_get_base_workflow (m : EpbWorkflowManager) : Workflow :=
  m.base_workflow

/-- `EPBWorkflowManager.create_workflow(params, input_image_filename)`:
deep copy, then input image, expression, optional seed, optional filename
prefix, optional sampler parameters. -/
def epb_create_workflow (m : EpbWorkflowManager) (p : EpbGenerationParams)
    (input_image_filename : String) : Workflow :=
  let wf := epb_get_base_workflow m
  let wf1 := epb_set_input_image m wf input_image_filename
  let wf2 := epb_apply_expression m wf1 p.expression
  let wf3 := match m.seed_node_id with
    | some _ => epb_set_seed m wf2 p.seed
    | none => wf2
  let wf4 := match m.save_image_node_id with
    | some _ => epb_set_filename_pref m wf3 p.filename_pref
    | none => wf3
  match m.sampler_node_id, p.sampler with
  | some _, some sp => epb_apply_sampler_params m wf4 sp
  | _, _ => wf4

/-- A session of repeated `create_workflow` calls with the manager state
threaded explicitly (each call mutates only its own deep copy). -/
def epbRunCreate (m : EpbWorkflowManager)
    (ps : List (EpbGenerationParams × String)) :
    EpbWorkflowManager × List Workflow :=
  match ps with
  | [] => (m, [])
  | p :: rest =>
    let w := epb_create_workflow m p.1 p.2
    let (m', ws) := epbRunCreate m rest
    (m', w :: ws)

/-! ## scripts/expression_preset_batch.py — seeds and filename templates -/

/-- `compute_seed(strategy, base, index)`: `"time"` reads the clock
(`msClock` oracle), `"fixed"` returns the base, anything else increments
from the base. -/
def compute_seed (strategy : String) (base : Int) (index : Int)
    (msClock : Int) : Int :=
  if strategy = "time" then generate_seed msClock
  else if strategy = "fixed" then base
  else base + index

/-- The `for r in range(run.repeats)` loop: one seed per repeat, the shared
`seed_counter` incremented after each.  Returns the seeds in submission
order and the updated counter. -/
def runRepeatSeeds (strategy : String) (base : Int) (clock : Nat → Int) :
    Nat → Nat → List Int × Nat
  | 0, counter => ([], counter)
  | n + 1, counter =>
    let s := compute_seed strategy base counter (clock counter)
    let (rest, c') := runRepeatSeeds strategy base clock n (counter + 1)
    (s :: rest, c')

/-- The `for … in combos` loop around the repeat loop. -/
def runComboSeeds (strategy : String) (base : Int) (clock : Nat → Int) :
    Nat → Nat → Nat → List Int × Nat
  | 0, _, counter => ([], counter)
  | n + 1, reps, counter =>
    let (s1, c1) := runRepeatSeeds strategy base clock reps counter
    let (s2, c2) := runComboSeeds strategy base clock n reps c1
    (s1 ++ s2, c2)

/-- The `for expr in expressions` loop around the combo loop. -/
def runExprSeeds (strategy : String) (base : Int) (clock : Nat → Int) :
    Nat → Nat → Nat → Nat → List Int × Nat
  | 0, _, _, counter => ([], counter)
  | n + 1, combos, reps, counter =>
    let (s1, c1) := runComboSeeds strategy base clock combos reps counter
    let (s2, c2) := runExprSeeds strategy base clock n combos reps c1
    (s1 ++ s2, c2)

/-- The outer `for img_path in files` loop.  `images` lists one flag per
file: `false` models a failed upload, whose `continue` skips every
expression/combo/repeat (and therefore every seed) of that image. -/
def runImageSeeds (strategy : String) (base : Int) (clock : Nat → Int) :
    List Bool → Nat → Nat → Nat → Nat → List Int × Nat
  | [], _, _, _, counter => ([], counter)
  | ok :: rest, exprs, combos, reps, counter =>
    if ok then
      let (s1, c1) := runExprSeeds strategy base clock exprs combos reps counter
      let (s2, c2) := runImageSeeds strategy base clock rest exprs combos reps c1
      (s1 ++ s2, c2)
    else
      runImageSeeds strategy base clock rest exprs combos reps counter

/-- All seeds of one `main` invocation, in submission order
(`seed_counter` starts at 0). -/
def mainSeeds (strategy : String) (base : Int) (clock : Nat → Int)
    (images : List Bool) (exprs combos reps : Nat) : List Int :=
  (runImageSeeds strategy base clock images exprs combos reps 0).1

/-- `_fmt_float(x, 3)`: three decimal digits, trailing zeros and the dot
stripped, `"0"` when everything is stripped.  The rational stands for the
Python float; the binary-float rounding inside `f"{x:.3f}"` is abstracted
to rounding the rational to the nearest thousandth. -/
def fmtFloat3 (q : ℚ) : String :=
  let n : Int := round (q * 1000)
  let sign := if n < 0 then "-" else ""
  let a := n.natAbs
  let ip := a / 1000
  let fp := a % 1000
  let fpStr :=
    String.mk (List.replicate (3 - (toString fp).length) '0') ++ toString fp
  let s := sign ++ toString ip ++ "." ++ fpStr
  let s1 := String.mk (stripTrailing '0' s.toList)
  let s2 := String.mk (stripTrailing '.' s1.toList)
  if s2 = "" then "0" else s2

/-- One piece of a `str.format` template: literal text or `{name}`. -/
inductive TSeg where
  | lit (s : String) : TSeg
  | ph (name : String) : TSeg
deriving DecidableEq, Repr

/-- `template.format(**values)`: concatenate pieces left to right,
substituting placeholders; a placeholder whose name is not among the keys
raises `KeyError` — nothing is ever dropped silently. -/
def formatTemplate (segs : List TSeg) (vals : List (String × String)) :
    Except String String :=
  match segs with
  | [] => .ok ""
  | .lit s :: rest =>
    match formatTemplate rest vals with
    | .ok t => .ok (s ++ t)
    | .error e => .error e
  | .ph n :: rest =>
    match lookupA vals n with
    | none => .error ("KeyError: " ++ n)
    | some v =>
      match formatTemplate rest vals with
      | .ok t => .ok (v ++ t)
      | .error e => .error e

/-- The `values` dict built inside `render_prefix`: `image`, `expr`, `run`
and `seed` always; `steps`, `cfg`, `denoise`, `sampler`, `scheduler` only
when the corresponding argument is present. -/
def renderValues (image_stem expr run_id : String) (seed : Int)
    (steps : Option Int) (cfg denoise : Option ℚ)
    (sampler scheduler : Option String) : List (String × String) :=
  [("image", safe_filename image_stem 50), ("expr", safe_filename expr 50),
   ("run", safe_filename run_id 50), ("seed", toString seed)]
  ++ (match steps with | some n => [("steps", toString n)] | none => [])
  ++ (match cfg with | some q => [("cfg", fmtFloat3 q)] | none => [])
  ++ (match denoise with | some q => [("denoise", fmtFloat3 q)] | none => [])
  ++ (match sampler with | some s => [("sampler", safe_filename s 50)] | none => [])
  ++ (match scheduler with | some s => [("scheduler", safe_filename s 50)] | none => [])

/-- `render_prefix(template, …)` of the batch script (source name
`render_prefix`): build the values dict, then `template.format(**values)` —
a reference to an absent variable surfaces as a `KeyError`. -/
def render_pref (template : List TSeg) (image_stem expr run_id : String)
    (seed : Int) (steps : Option Int) (cfg denoise : Option ℚ)
    (sampler scheduler : Option String) : Except String String :=
  formatTemplate template
    (renderValues image_stem expr run_id seed steps cfg denoise sampler scheduler)

/-! ## Concrete fixtures used by witnesses and counterexamples -/

/-- A workflow whose five parameter-injection targets are all link-valued
(`[producer_node_id, output_index]` pairs). -/
def c1wf : Workflow :=
  [("9", Json.obj [("class_type", Json.str "ExpressionPresetNode"),
     ("inputs", Json.obj [("expression", Json.arr [Json.str "4", Json.num 0])])]),
   ("1", Json.obj [("inputs", Json.obj [("image", Json.arr [Json.str "2", Json.num 0])])]),
   ("5", Json.obj [("inputs", Json.obj [("seed", Json.arr [Json.str "6", Json.num 0])])]),
   ("7", Json.obj [("inputs", Json.obj [("filename_prefix", Json.arr [Json.str "8", Json.num 0])])]),
   ("3", Json.obj [("inputs", Json.obj [("steps", Json.arr [Json.str "4", Json.num 1])])])]

/-- An EPB manager configured against `c1wf`. -/
def c1m : EpbWorkflowManager :=
  ⟨c1wf, ⟨"9", "expression"⟩, "1", "image", some "7", some "5", "seed",
   some "3", "steps", "cfg", "denoise", "sampler_name", "scheduler"⟩

/-- A workflow whose KSampler `steps` input is a link. -/
def c1ceWf : Workflow :=
  [("3", Json.obj [("class_type", Json.str "KSampler"),
     ("inputs", Json.obj [("steps", Json.arr [Json.str "5", Json.num 0]),
                          ("cfg", Json.num 7)])])]

/-- What `_set_sampler` produces from `c1ceWf`: the `steps` link is gone. -/
def c1ceWfAfter : Workflow :=
  [("3", Json.obj [("class_type", Json.str "KSampler"),
     ("inputs", Json.obj [("steps", Json.num 20),
                          ("cfg", Json.num 7),
                          ("sampler_name", Json.str "euler"),
                          ("scheduler", Json.str "karras"),
                          ("seed", Json.num 42)])])]

/-- A two-axis template: `hair` (2 choices) and `color` (2 choices). -/
def c2tpl : PromptTemplate :=
  ⟨["1girl"],
   [⟨"hair", [ChoiceVal.s "long", ChoiceVal.s "short"]⟩,
    ⟨"color", [ChoiceVal.s "black", ChoiceVal.s "blonde"]⟩],
   ["bad anatomy"]⟩

/-- A builder over `c2tpl` with non-target randomization disabled. -/
def c2pb : PromptBuilder := ⟨c2tpl, false⟩

/-- Sampler choice lists: two step counts, one of everything else. -/
def c2sc : SamplerChoices := ⟨[20, 30], [7], ["euler"], ["karras"]⟩

/-- LoRA choice lists: a single entry each. -/
def c2lc : LoraChoices := ⟨["x.safetensors"], [4/5], [1]⟩

/-! ## Helper lemmas -/

theorem mapOpt_length {α β : Type} {f : α → Option β} :
    ∀ {l : List α} {l' : List β}, mapOpt f l = some l' → l'.length = l.length := by
  intro l
  induction l with
  | nil => intro l' h; simp [mapOpt] at h; simp [← h]
  | cons a as ih =>
    intro l' h
    simp only [mapOpt] at h
    cases hfa : f a with
    | none => rw [hfa] at h; simp at h
    | some b =>
      rw [hfa] at h
      cases hrec : mapOpt f as with
      | none => rw [hrec] at h; simp at h
      | some bs =>
        rw [hrec] at h
        simp at h
        subst h
        simp [ih hrec]

theorem mapOpt_mem {α β : Type} {f : α → Option β} :
    ∀ {l : List α} {l' : List β}, mapOpt f l = some l' →
      ∀ b ∈ l', ∃ a ∈ l, f a = some b := by
  intro l
  induction l with
  | nil => intro l' h; simp [mapOpt] at h; subst h; simp
  | cons a as ih =>
    intro l' h
    simp only [mapOpt] at h
    cases hfa : f a with
    | none => rw [hfa] at h; simp at h
    | some b0 =>
      rw [hfa] at h
      cases hrec : mapOpt f as with
      | none => rw [hrec] at h; simp at h
      | some bs =>
        rw [hrec] at h
        simp at h
        subst h
        intro b hb
        rcases List.mem_cons.mp hb with hb | hb
        · exact ⟨a, List.mem_cons_self _ _, by rw [hfa, hb]⟩
        · rcases ih hrec b hb with ⟨a', ha', hfa'⟩
          exact ⟨a', List.mem_cons_of_mem _ ha', hfa'⟩

theorem mapOpt_mem_of_mem {α β : Type} {f : α → Option β} :
    ∀ {l : List α} {l' : List β}, mapOpt f l = some l' →
      ∀ {a b}, a ∈ l → f a = some b → b ∈ l' := by
  intro l
  induction l with
  | nil => intro l' _ a b ha; simp at ha
  | cons x xs ih =>
    intro l' h a b ha hfa
    simp only [mapOpt] at h
    cases hfx : f x with
    | none => rw [hfx] at h; simp at h
    | some b0 =>
      rw [hfx] at h
      cases hrec : mapOpt f xs with
      | none => rw [hrec] at h; simp at h
      | some bs =>
        rw [hrec] at h
        simp at h
        subst h
        rcases List.mem_cons.mp ha with rfl | ha
        · rw [hfa] at hfx; simp at hfx; simp [hfx]
        · exact List.mem_cons_of_mem _ (ih hrec ha hfa)

theorem mapOpt_isSome {α β : Type} {f : α → Option β} :
    ∀ {l : List α}, (∀ a ∈ l, (f a).isSome) → ∃ l', mapOpt f l = some l' := by
  intro l
  induction l with
  | nil => intro _; exact ⟨[], rfl⟩
  | cons a as ih =>
    intro h
    rcases Option.isSome_iff_exists.mp (h a (List.mem_cons_self _ _)) with ⟨b, hb⟩
    rcases ih (fun x hx => h x (List.mem_cons_of_mem _ hx)) with ⟨bs, hbs⟩
    exact ⟨b :: bs, by simp [mapOpt, hb, hbs]⟩

theorem mapOpt_congr {α β : Type} {f g : α → Option β} :
    ∀ {l : List α}, (∀ a ∈ l, f a = g a) → mapOpt f l = mapOpt g l := by
  intro l
  induction l with
  | nil => intro _; rfl
  | cons a as ih =>
    intro h
    simp only [mapOpt, h a (List.mem_cons_self _ _),
      ih (fun x hx => h x (List.mem_cons_of_mem _ hx))]

theorem joinL_length {α : Type} {n : Nat} :
    ∀ {ls : List (List α)}, (∀ x ∈ ls, x.length = n) →
      (joinL ls).length = ls.length * n := by
  intro ls
  induction ls with
  | nil => intro _; simp [joinL]
  | cons l rest ih =>
    intro h
    simp only [joinL, List.length_append, List.length_cons,
      ih (fun x hx => h x (List.mem_cons_of_mem _ hx)),
      h l (List.mem_cons_self _ _)]
    ring

theorem flatMapL_length {α β : Type} {f : α → List β} {n : Nat} :
    ∀ {l : List α}, (∀ a ∈ l, (f a).length = n) →
      (flatMapL f l).length = l.length * n := by
  intro l
  induction l with
  | nil => intro _; simp [flatMapL]
  | cons a as ih =>
    intro h
    simp only [flatMapL, List.length_append, List.length_cons,
      ih (fun x hx => h x (List.mem_cons_of_mem _ hx)),
      h a (List.mem_cons_self _ _)]
    ring

theorem flatMapL_mem {α β : Type} {f : α → List β} :
    ∀ {l : List α} {b : β}, b ∈ flatMapL f l ↔ ∃ a ∈ l, b ∈ f a := by
  intro l
  induction l with
  | nil => simp [flatMapL]
  | cons a as ih =>
    intro b
    simp only [flatMapL, List.mem_append, ih, List.mem_cons]
    constructor
    · rintro (h | ⟨a', ha', hb⟩)
      · exact ⟨a, Or.inl rfl, h⟩
      · exact ⟨a', Or.inr ha', hb⟩
    · rintro ⟨a', (rfl | ha'), hb⟩
      · exact Or.inl hb
      · exact Or.inr ⟨a', ha', hb⟩

theorem prodCons_length {α : Type} (rest : List (List α)) :
    ∀ (l : List α), (prodCons l rest).length = l.length * rest.length := by
  intro l
  induction l with
  | nil => simp [prodCons]
  | cons x xs ih =>
    simp only [prodCons, List.length_append, List.length_map, List.length_cons, ih]
    ring

theorem listProd_length {α : Type} :
    ∀ (ls : List (List α)),
      (listProd ls).length = (ls.map List.length).prod := by
  intro ls
  induction ls with
  | nil => simp [listProd]
  | cons l rest ih =>
    simp [listProd, prodCons_length, ih]

theorem lookupA_setA {β : Type} (k k' : String) (v : β) :
    ∀ (m : List (String × β)),
      lookupA (setA m k v) k' = if k = k' then some v else lookupA m k' := by
  intro m
  induction m with
  | nil => by_cases h : k = k' <;> simp [setA, lookupA, h]
  | cons kv rest ih =>
    obtain ⟨k0, v0⟩ := kv
    by_cases h0 : k0 = k
    · subst h0
      by_cases h : k0 = k' <;> simp [setA, lookupA, h]
    · by_cases h : k0 = k'
      · subst h
        have hk' : ¬(k = k0) := fun hk => h0 hk.symm
        simp [setA, h0, lookupA, hk']
      · simp [setA, h0, lookupA, h, ih]

theorem lookupA_eq_none {β : Type} {k : String} :
    ∀ {m : List (String × β)}, k ∉ m.map Prod.fst → lookupA m k = none := by
  intro m
  induction m with
  | nil => intro _; rfl
  | cons kv rest ih =>
    intro h
    obtain ⟨k0, v0⟩ := kv
    simp only [List.map_cons, List.mem_cons] at h
    push_neg at h
    simp only [lookupA]
    rw [if_neg (fun hk => h.1 hk.symm)]
    exact ih h.2

theorem lookupA_isSome_of_mem {β : Type} {k : String} :
    ∀ {m : List (String × β)}, k ∈ m.map Prod.fst → (lookupA m k).isSome := by
  intro m
  induction m with
  | nil => intro h; simp at h
  | cons kv rest ih =>
    intro h
    obtain ⟨k0, v0⟩ := kv
    simp only [List.map_cons, List.mem_cons] at h
    by_cases hk : k0 = k
    · simp [lookupA, hk]
    · simp only [lookupA]
      rw [if_neg hk]
      rcases h with h | h
      · exact absurd h.symm hk
      · exact ih h

/-- Lookup in the dict built by folding `setA` over key/value pairs with
distinct keys: a key among the pairs yields its value, anything else falls
through to the initial dict. -/
theorem lookupA_foldl_nodup {β : Type} :
    ∀ (pairs : List (String × β)) (m0 : List (String × β)) (k : String),
      (pairs.map Prod.fst).Nodup →
      lookupA (pairs.foldl (fun m nc => setA m nc.1 nc.2) m0) k =
        match lookupA pairs k with
        | some v => some v
        | none => lookupA m0 k := by
  intro pairs
  induction pairs with
  | nil => intro m0 k _; simp [lookupA]
  | cons kv rest ih =>
    intro m0 k hnd
    obtain ⟨k0, v0⟩ := kv
    simp only [List.map_cons, List.nodup_cons] at hnd
    simp only [List.foldl_cons]
    rw [ih (setA m0 k0 v0) k hnd.2]
    by_cases hk : k0 = k
    · subst hk
      have : lookupA rest k0 = none := lookupA_eq_none hnd.1
      simp [this, lookupA, lookupA_setA]
    · simp only [lookupA]
      rw [if_neg hk]
      cases h : lookupA rest k with
      | some v => simp
      | none => simp [lookupA_setA, hk]

theorem lookupKey_eq_lookupA : ∀ (m : List (String × Json)) (k : String),
    lookupKey m k = lookupA m k := by
  intro m
  induction m with
  | nil => intro k; rfl
  | cons kv rest ih =>
    intro k
    obtain ⟨k0, v0⟩ := kv
    simp only [lookupKey, lookupA, ih]

theorem setKey_eq_setA : ∀ (m : List (String × Json)) (k : String) (v : Json),
    setKey m k v = setA m k v := by
  intro m
  induction m with
  | nil => intro k v; rfl
  | cons kv rest ih =>
    intro k v
    obtain ⟨k0, v0⟩ := kv
    simp only [setKey, setA, ih]

theorem lookupKey_setKey (k k' : String) (v : Json) (m : List (String × Json)) :
    lookupKey (setKey m k v) k' = if k = k' then some v else lookupKey m k' := by
  rw [setKey_eq_setA, lookupKey_eq_lookupA, lookupA_setA, lookupKey_eq_lookupA]

/-- Decompose a successful `lookupInput`. -/
theorem lookupInput_elim {wf : Workflow} {nid key : String} {j : Json}
    (h : lookupInput wf nid key = some j) :
    ∃ fields ins, lookupKey wf nid = some (Json.obj fields) ∧
      lookupKey fields "inputs" = some (Json.obj ins) ∧
      lookupKey ins key = some j := by
  unfold lookupInput at h
  split at h
  next fields heq =>
    split at h
    next ins heq2 => exact ⟨fields, ins, heq, heq2, h⟩
    next => simp at h
  next => simp at h

/-- An EPB guarded single-input assignment leaves the workflow untouched
when the current value at the targeted input is a link (list). -/
theorem epbGuardedAssign_link {wf : Workflow} {nid key : String} {v : Json}
    {l : List Json} (h : lookupInput wf nid key = some (Json.arr l)) :
    epbGuardedAssign wf nid key v = wf := by
  rcases lookupInput_elim h with ⟨fields, ins, hn, hi, hk⟩
  unfold epbGuardedAssign epbGetNodeInfo
  simp only [hn, hi, hk]

/-- The inner `_set` of `apply_sampler_params` never disturbs a key whose
current value is a link. -/
theorem guardedInsSet_link {ins : List (String × Json)} {key : String}
    {l : List Json} (k' : String) (v : Json)
    (h : lookupKey ins key = some (Json.arr l)) :
    lookupKey (guardedInsSet ins k' v) key = some (Json.arr l) := by
  unfold guardedInsSet
  by_cases hk : k' = key
  · subst hk
    rw [h]
    exact h
  · cases hc : lookupKey ins k' with
    | none => rw [lookupKey_setKey, if_neg hk, h]
    | some cv =>
      cases cv with
      | arr _ => exact h
      | null => rw [lookupKey_setKey, if_neg hk, h]
      | bool _ => rw [lookupKey_setKey, if_neg hk, h]
      | num _ => rw [lookupKey_setKey, if_neg hk, h]
      | str _ => rw [lookupKey_setKey, if_neg hk, h]
      | obj _ => rw [lookupKey_setKey, if_neg hk, h]

/-- `apply_sampler_params` keeps every link-valued input of the sampler
node bit-for-bit unchanged. -/
theorem epbApplySampler_link {m : EpbWorkflowManager} {wf : Workflow}
    {nid key : String} {l : List Json} {sp : EpbSamplerParams}
    (hs : optNodeId m.sampler_node_id = some nid)
    (h : lookupInput wf nid key = some (Json.arr l)) :
    lookupInput (epb_apply_sampler_params m wf sp) nid key =
      some (Json.arr l) := by
  rcases lookupInput_elim h with ⟨fields, ins, hn, hi, hk⟩
  unfold epb_apply_sampler_params
  simp only [hs, hn, hi]
  unfold lookupInput
  simp only [lookupKey_setKey, if_true, eq_self_iff_true]
  exact guardedInsSet_link _ _ (guardedInsSet_link _ _ (guardedInsSet_link _ _
    (guardedInsSet_link _ _ (guardedInsSet_link _ _ hk))))

/-! ## Claim theorems -/

/-- C1 (amended): the EPB injector operations — expression, input-image
filename, seed, filename prefix, and each sampler field — never overwrite a
link-valued (list-valued) input: the four single-input setters return the
workflow unchanged, and `apply_sampler_params` leaves a link-valued sampler
input intact.  (The claim as stated, covering the image_explorer
`WorkflowManager` setters as well, is refuted by `c1_counterexample`.) -/
theorem c1_epb_no_link_overwrite
    (m : EpbWorkflowManager) (wf : Workflow) (expr fn pfx : String)
    (seed : Int) (sp : EpbSamplerParams) (snid pnid sampnid skey : String)
    (lexpr limg lseed lpfx lsamp : List Json)
    (hexpr : lookupInput wf m.expression_node.node_id
      m.expression_node.expression_input_name = some (Json.arr lexpr))
    (himg : lookupInput wf m.input_image_node_id m.input_image_input_name =
      some (Json.arr limg))
    (hsn : optNodeId m.seed_node_id = some snid)
    (hseed : lookupInput wf snid m.seed_input_name = some (Json.arr lseed))
    (hfn : optNodeId m.save_image_node_id = some pnid)
    (hpfx : lookupInput wf pnid "filename_prefix" = some (Json.arr lpfx))
    (hsm : optNodeId m.sampler_node_id = some sampnid)
    (hskey : lookupInput wf sampnid skey = some (Json.arr lsamp)) :
    epb_apply_expression m wf expr = wf ∧
    epb_set_input_image m wf fn = wf ∧
    epb_set_seed m wf seed = wf ∧
    epb_set_filename_pref m wf pfx = wf ∧
    lookupInput (epb_apply_sampler_params m wf sp) sampnid skey =
      some (Json.arr lsamp) := by
  refine ⟨epbGuardedAssign_link hexpr, epbGuardedAssign_link himg, ?_, ?_, ?_⟩
  · unfold epb_set_seed
    rw [hsn]
    exact epbGuardedAssign_link hseed
  · unfold epb_set_filename_pref
    rw [hfn]
    exact epbGuardedAssign_link hpfx
  · exact epbApplySampler_link hsm hskey

theorem c1_epb_no_link_overwrite_witness :
    (lookupInput c1wf "9" "expression" = some (Json.arr [Json.str "4", Json.num 0]) ∧
     lookupInput c1wf "1" "image" = some (Json.arr [Json.str "2", Json.num 0]) ∧
     optNodeId c1m.seed_node_id = some "5" ∧
     lookupInput c1wf "5" "seed" = some (Json.arr [Json.str "6", Json.num 0]) ∧
     optNodeId c1m.save_image_node_id = some "7" ∧
     lookupInput c1wf "7" "filename_prefix" = some (Json.arr [Json.str "8", Json.num 0]) ∧
     optNodeId c1m.sampler_node_id = some "3" ∧
     lookupInput c1wf "3" "steps" = some (Json.arr [Json.str "4", Json.num 1])) ∧
    (epb_apply_expression c1m c1wf "smile" = c1wf ∧
     epb_set_input_image c1m c1wf "img.png" = c1wf ∧
     epb_set_seed c1m c1wf 42 = c1wf ∧
     epb_set_filename_pref c1m c1wf "out/img" = c1wf ∧
     lookupInput (epb_apply_sampler_params c1m c1wf ⟨20, 7, 1, "euler", "karras"⟩)
       "3" "steps" = some (Json.arr [Json.str "4", Json.num 1])) :=
  ⟨⟨by decide, by decide, by decide, by decide, by decide, by decide, by decide,
    by decide⟩,
   c1_epb_no_link_overwrite c1m c1wf "smile" "img.png" "out/img" 42
     ⟨20, 7, 1, "euler", "karras"⟩ "5" "7" "3" "steps"
     [Json.str "4", Json.num 0] [Json.str "2", Json.num 0]
     [Json.str "6", Json.num 0] [Json.str "8", Json.num 0]
     [Json.str "4", Json.num 1]
     (by decide) (by decide) (by decide) (by decide) (by decide) (by decide)
     (by decide) (by decide)⟩

/-- C1 (counterexample): the image_explorer `WorkflowManager._set_sampler`
has no link check — on a workflow whose `steps` input is a link-reference
`["5", 0]`, applying the sampler parameters overwrites that link with the
scalar `20`. -/
theorem c1_counterexample :
    lookupInput c1ceWf "3" "steps" = some (Json.arr [Json.str "5", Json.num 0]) ∧
    ie_set_sampler c1ceWf "3" (SamplerConfig.mk 20 7 "euler" "karras" 42) =
      .ok c1ceWfAfter ∧
    lookupInput c1ceWfAfter "3" "steps" = some (Json.num 20) := by
  refine ⟨by decide, by rfl, by decide⟩

/-- C4: no number of `create_configured_workflow` / `create_workflow` calls
changes the stored base graph of either workflow manager — a later
`get_base_workflow` returns exactly the graph held at construction (each
run mutates only its own deep copy). -/
theorem c4_base_workflow_immutable (m : IeWorkflowManager)
    (ps : List GenerationParams) (m2 : EpbWorkflowManager)
    (qs : List (EpbGenerationParams × String)) :
    ie_get_base_workflow (ieRunConfigured m ps).1 = ie_get_base_workflow m ∧
    epb_get_base_workflow (epbRunCreate m2 qs).1 = epb_get_base_workflow m2 := by
  constructor
  · induction ps with
    | nil => rfl
    | cons p rest ih => simpa [ieRunConfigured] using ih
  · induction qs with
    | nil => rfl
    | cons q rest ih => simpa [epbRunCreate] using ih

/-- C8 (amended): a missing state file and a file whose content fails JSON
decoding are both tolerated — loading returns the empty used-axes set and
never raises.  (The claim as stated — *every* unreadable content tolerated —
is refuted by `c8_counterexample`: content that decodes to a non-object
re-raises.) -/
theorem c8_load_tolerates_missing_and_corrupt :
    state_load StateFile.missing = .ok [] ∧
    state_load StateFile.unparseable = .ok [] :=
  ⟨rfl, rfl⟩

/-- C8 (counterexample): a state file holding `[]` — valid JSON that is not
an exploration-state object — makes `_load` raise: the `AttributeError`
from `data.get` falls into the `except Exception: … raise` arm, so loading
is not exception-free for every unreadable content. -/
theorem c8_counterexample :
    state_load (StateFile.decoded (Json.arr [])) =
      .error "AttributeError: object has no attribute get" :=
  rfl

/-- C9: if the filename-prefix template references a placeholder that is
not among the values `render_prefix` builds (image/expr/run/seed plus the
optional sampler fields actually supplied), rendering raises a `KeyError` —
the segment is never silently dropped. -/
theorem c9_undefined_placeholder_raises
    (template : List TSeg) (image_stem expr run_id : String) (seed : Int)
    (steps : Option Int) (cfg denoise : Option ℚ)
    (sampler scheduler : Option String) (n : String)
    (hph : TSeg.ph n ∈ template)
    (hmiss : lookupA (renderValues image_stem expr run_id seed steps cfg
      denoise sampler scheduler) n = none) :
    ∃ e, render_pref template image_stem expr run_id seed steps cfg denoise
      sampler scheduler = .error e := by
  unfold render_pref
  generalize hv : renderValues image_stem expr run_id seed steps cfg denoise
    sampler scheduler = vals
  rw [hv] at hmiss
  clear hv
  induction template with
  | nil => simp at hph
  | cons seg rest ih =>
    cases seg with
    | lit s =>
      have hph' : TSeg.ph n ∈ rest := by
        rcases List.mem_cons.mp hph with h | h
        · exact absurd h (by simp)
        · exact h
      rcases ih hph' with ⟨e, he⟩
      exact ⟨e, by simp only [formatTemplate, he]⟩
    | ph m =>
      by_cases hm : m = n
      · subst hm
        exact ⟨"KeyError: " ++ m, by simp only [formatTemplate, hmiss]⟩
      · have hph' : TSeg.ph n ∈ rest := by
          rcases List.mem_cons.mp hph with h | h
          · cases h; exact absurd rfl hm
          · exact h
        rcases ih hph' with ⟨e, he⟩
        cases hl : lookupA vals m with
        | none => exact ⟨"KeyError: " ++ m, by simp only [formatTemplate, hl]⟩
        | some v => exact ⟨e, by simp only [formatTemplate, hl, he]⟩

theorem c9_undefined_placeholder_raises_witness :
    (TSeg.ph "undeclared" ∈ [TSeg.lit "out/", TSeg.ph "undeclared"] ∧
     lookupA (renderValues "img" "smile" "r1" 5 none none none none none)
       "undeclared" = none) ∧
    ∃ e, render_pref [TSeg.lit "out/", TSeg.ph "undeclared"] "img" "smile"
      "r1" 5 none none none none none = .error e :=
  ⟨⟨by decide, by decide⟩,
   c9_undefined_placeholder_raises [TSeg.lit "out/", TSeg.ph "undeclared"]
     "img" "smile" "r1" 5 none none none none none "undeclared"
     (by decide) (by decide)⟩

/-- The entry filter of `join_prompts`. -/
theorem joinPrompts_filterMap (ps : List String) :
    ps.filterMap (fun p => let t := pyStrip p; if t = "" then none else some t) =
      (ps.map pyStrip).filter (fun t => t ≠ "") := by
  induction ps with
  | nil => rfl
  | cons p rest ih =>
    by_cases h : pyStrip p = ""
    · simp [List.filterMap_cons, List.filter_cons, h, ih]
    · simp [List.filterMap_cons, List.filter_cons, h, ih]

/-- C10: `join_prompts` joins with `", "` exactly the entries that are
non-empty after stripping, stripped, in their original order; hence an axis
whose chosen value is the empty string contributes neither a segment nor an
extra comma to the positive prompt built from fixed parts plus axis values. -/
theorem c10_join_prompts_drops_empty (ps : List String) (pb : PromptBuilder)
    (vals1 vals2 : List (String × String)) (n : String) :
    join_prompts ps =
      String.intercalate ", " ((ps.map pyStrip).filter (fun t => t ≠ "")) ∧
    build_positive_prompt pb (vals1 ++ (n, "") :: vals2) =
      build_positive_prompt pb (vals1 ++ vals2) := by
  constructor
  · unfold join_prompts
    rw [joinPrompts_filterMap]
  · unfold build_positive_prompt join_prompts
    congr 1
    simp only [List.map_append, List.map_cons]
    rw [← List.append_assoc, ← List.append_assoc,
      List.filterMap_append, List.filterMap_append, List.filterMap_cons]
    have h0 : pyStrip "" = "" := rfl
    simp [h0]

/-- C5 (amended): on a non-empty choice list whose weights are all exactly
zero, `utils.weighted_choice` does not raise and returns the uniformly
drawn value `values[rIdx % len]` — a member of the listed values — for
every draw of the index oracle.  (The claim as stated also covers the
script-local `weighted_choice` of `prompt_explorer.py`, which raises on
the same input: `c5_counterexample`.) -/
theorem c5_weighted_choice_all_zero_uniform
    (items : List (String × ℚ)) (rIdx : Nat) (r : ℚ)
    (hne : items ≠ []) (hz : ∀ p ∈ items, p.2 = 0) :
    weighted_choice items rIdx r =
      .ok ((items.map Prod.fst).getD (rIdx % items.length) "") ∧
    (items.map Prod.fst).getD (rIdx % items.length) "" ∈ items.map Prod.fst := by
  have hlen : 0 < items.length := List.length_pos.mpr hne
  have hall : (items.map Prod.snd).all (fun w => decide (w = 0)) = true := by
    rw [List.all_eq_true]
    intro w hw
    rcases List.mem_map.mp hw with ⟨p, hp, rfl⟩
    exact decide_eq_true (hz p hp)
  have hmod : rIdx % items.length < (items.map Prod.fst).length := by
    rw [List.length_map]
    exact Nat.mod_lt _ hlen
  constructor
  · cases items with
    | nil => exact absurd rfl hne
    | cons a as =>
      unfold weighted_choice
      rw [if_pos hall]
      simp [List.length_map]
  · rw [List.getD_eq_getElem?_getD, List.getElem?_eq_getElem hmod]
    exact List.getElem_mem hmod

theorem c5_weighted_choice_all_zero_uniform_witness :
    ([("a", (0 : ℚ)), ("b", 0), ("c", 0)] ≠ [] ∧
     ∀ p ∈ [("a", (0 : ℚ)), ("b", 0), ("c", 0)], p.2 = 0) ∧
    (weighted_choice [("a", (0 : ℚ)), ("b", 0), ("c", 0)] 7 0 =
      .ok (["a", "b", "c"].getD (7 % 3) "") ∧
     (["a", "b", "c"].getD (7 % 3) "") ∈ ["a", "b", "c"]) :=
  ⟨⟨by decide, by decide⟩,
   c5_weighted_choice_all_zero_uniform [("a", 0), ("b", 0), ("c", 0)] 7 0
     (by decide) (by decide)⟩

/-- C5 (counterexample): the `prompt_explorer.py` `weighted_choice` passes
all-zero weights straight to `random.choices`, which raises `ValueError`
instead of falling back to a uniform draw. -/
theorem c5_counterexample :
    pe_weighted_choice [("a", 0), ("b", 0)] 0 =
      .error "ValueError: Total of weights must be greater than zero" := by
  simp [pe_weighted_choice, pyRandomChoices1]

/-- C3: for an axis resolved by name, the target branch returns every
declared choice's value in declared order with weights ignored, and the
non-target branch with randomization disabled returns the single-element
sequence holding the first declared choice's value. -/
theorem c3_axis_choice_sequences (pb : PromptBuilder) (n : String)
    (ax : PromptAxis) (r : Nat)
    (hfind : pb.template.get_axis_by_name n = some ax) :
    get_axis_choices pb n true r = some (ax.choices.map choiceText) ∧
    (pb.randomize_non_target = false → ∀ c cs, ax.choices = c :: cs →
      get_axis_choices pb n false r = some [choiceText c]) := by
  constructor
  · unfold get_axis_choices
    simp [hfind, PromptAxis.get_all_values]
  · intro hrand c cs hc
    unfold get_axis_choices
    simp [hfind, hrand, PromptAxis.get_all_values, hc]

theorem c3_axis_choice_sequences_witness :
    ((⟨⟨["1girl"], [⟨"hair", [ChoiceVal.s "long", ChoiceVal.s "short"]⟩,
        ⟨"color", [ChoiceVal.wp "black" 2, ChoiceVal.s "blonde"]⟩], ["bad"]⟩,
      false⟩ : PromptBuilder).template.get_axis_by_name "color" =
      some ⟨"color", [ChoiceVal.wp "black" 2, ChoiceVal.s "blonde"]⟩) ∧
    (get_axis_choices ⟨⟨["1girl"],
        [⟨"hair", [ChoiceVal.s "long", ChoiceVal.s "short"]⟩,
         ⟨"color", [ChoiceVal.wp "black" 2, ChoiceVal.s "blonde"]⟩], ["bad"]⟩,
        false⟩ "color" true 0 =
      some ([ChoiceVal.wp "black" 2, ChoiceVal.s "blonde"].map choiceText) ∧
     ((false : Bool) = false → ∀ c cs,
        ([ChoiceVal.wp "black" 2, ChoiceVal.s "blonde"] : List ChoiceVal) = c :: cs →
        get_axis_choices ⟨⟨["1girl"],
          [⟨"hair", [ChoiceVal.s "long", ChoiceVal.s "short"]⟩,
           ⟨"color", [ChoiceVal.wp "black" 2, ChoiceVal.s "blonde"]⟩], ["bad"]⟩,
          false⟩ "color" false 0 = some [choiceText c])) :=
  ⟨by decide,
   c3_axis_choice_sequences
     ⟨⟨["1girl"], [⟨"hair", [ChoiceVal.s "long", ChoiceVal.s "short"]⟩,
        ⟨"color", [ChoiceVal.wp "black" 2, ChoiceVal.s "blonde"]⟩], ["bad"]⟩,
      false⟩ "color" ⟨"color", [ChoiceVal.wp "black" 2, ChoiceVal.s "blonde"]⟩ 0
     (by decide)⟩

theorem compute_seed_increment (base : Int) (c : Nat) (t : Int) :
    compute_seed "increment" base c t = base + c := by
  unfold compute_seed
  rw [if_neg (by decide), if_neg (by decide)]

/-- Concatenating a seed block that starts where the previous one stopped. -/
theorem seedShift (base : Int) (A B : Nat) (c : Nat) :
    (List.range A).map (fun (i : Nat) => base + c + (i : Int)) ++
      (List.range B).map (fun (i : Nat) => base + ((c + A : Nat) : Int) + (i : Int)) =
    (List.range (A + B)).map (fun (i : Nat) => base + c + (i : Int)) := by
  rw [List.range_add, List.map_append, List.map_map]
  congr 1
  apply List.map_congr_left
  intro i _
  simp only [Function.comp_apply]
  push_cast
  ring

theorem runRepeatSeeds_increment (base : Int) (clock : Nat → Int) :
    ∀ (n c : Nat), runRepeatSeeds "increment" base clock n c =
      ((List.range n).map (fun (i : Nat) => base + c + (i : Int)), c + n) := by
  intro n
  induction n with
  | zero => intro c; simp [runRepeatSeeds]
  | succ n ih =>
    intro c
    simp only [runRepeatSeeds, ih (c + 1), compute_seed_increment]
    refine Prod.ext ?_ (by simp; omega)
    show (base + (c : Int)) ::
        (List.range n).map (fun (i : Nat) => base + ((c + 1 : Nat) : Int) + (i : Int)) =
      (List.range (n + 1)).map (fun (i : Nat) => base + (c : Int) + (i : Int))
    rw [List.range_succ_eq_map, List.map_cons, List.map_map]
    congr 1
    · push_cast; ring
    · apply List.map_congr_left
      intro i _
      simp only [Function.comp_apply]
      push_cast
      ring

theorem runComboSeeds_increment (base : Int) (clock : Nat → Int) :
    ∀ (n reps c : Nat), runComboSeeds "increment" base clock n reps c =
      ((List.range (n * reps)).map (fun (i : Nat) => base + c + (i : Int)),
        c + n * reps) := by
  intro n
  induction n with
  | zero => intro reps c; simp [runComboSeeds]
  | succ n ih =>
    intro reps c
    simp only [runComboSeeds, runRepeatSeeds_increment, ih]
    refine Prod.ext ?_ (by simp; ring)
    show (List.range reps).map (fun (i : Nat) => base + c + (i : Int)) ++
        (List.range (n * reps)).map
          (fun (i : Nat) => base + ((c + reps : Nat) : Int) + (i : Int)) =
      (List.range ((n + 1) * reps)).map (fun (i : Nat) => base + c + (i : Int))
    rw [seedShift]
    have h : reps + n * reps = (n + 1) * reps := by ring
    rw [h]

theorem runExprSeeds_increment (base : Int) (clock : Nat → Int) :
    ∀ (n combos reps c : Nat),
      runExprSeeds "increment" base clock n combos reps c =
        ((List.range (n * (combos * reps))).map
          (fun (i : Nat) => base + c + (i : Int)),
          c + n * (combos * reps)) := by
  intro n
  induction n with
  | zero => intro combos reps c; simp [runExprSeeds]
  | succ n ih =>
    intro combos reps c
    simp only [runExprSeeds, runComboSeeds_increment, ih]
    refine Prod.ext ?_ (by simp; ring)
    show (List.range (combos * reps)).map (fun (i : Nat) => base + c + (i : Int)) ++
        (List.range (n * (combos * reps))).map
          (fun (i : Nat) => base + ((c + combos * reps : Nat) : Int) + (i : Int)) =
      (List.range ((n + 1) * (combos * reps))).map
        (fun (i : Nat) => base + c + (i : Int))
    rw [seedShift]
    have h : combos * reps + n * (combos * reps) = (n + 1) * (combos * reps) := by
      ring
    rw [h]

theorem runImageSeeds_increment (base : Int) (clock : Nat → Int) :
    ∀ (images : List Bool) (exprs combos reps c : Nat),
      runImageSeeds "increment" base clock images exprs combos reps c =
        ((List.range (images.count true * (exprs * (combos * reps)))).map
          (fun (i : Nat) => base + c + (i : Int)),
          c + images.count true * (exprs * (combos * reps))) := by
  intro images
  induction images with
  | nil => intro exprs combos reps c; simp [runImageSeeds]
  | cons ok rest ih =>
    intro exprs combos reps c
    cases ok with
    | true =>
      simp only [runImageSeeds, runExprSeeds_increment, ih, if_true]
      have hcount : (true :: rest).count true = rest.count true + 1 := by
        simp [List.count_cons]
      refine Prod.ext ?_ (by simp [hcount]; ring)
      show (List.range (exprs * (combos * reps))).map
          (fun (i : Nat) => base + c + (i : Int)) ++
        (List.range (rest.count true * (exprs * (combos * reps)))).map
          (fun (i : Nat) => base + ((c + exprs * (combos * reps) : Nat) : Int) +
            (i : Int)) =
        (List.range ((true :: rest).count true * (exprs * (combos * reps)))).map
          (fun (i : Nat) => base + c + (i : Int))
      rw [seedShift, hcount]
      have h : exprs * (combos * reps) +
          rest.count true * (exprs * (combos * reps)) =
          (rest.count true + 1) * (exprs * (combos * reps)) := by ring
      rw [h]
    | false =>
      simp only [runImageSeeds, Bool.false_eq_true, if_false, ih]
      have hcount : (false :: rest).count true = rest.count true := by
        simp [List.count_cons]
      rw [hcount]

/-- C7: under seed strategy `increment`, the `k`-th submission of the whole
invocation (counting from zero: the shared `seed_counter` advances once per
repeat) is given seed `base + k`; in particular, with base 100 and three
repeats of a single combination the submitted seeds are `100, 101, 102` in
order. -/
theorem c7_increment_seed_sequence (base : Int) (clock : Nat → Int)
    (images : List Bool) (exprs combos reps : Nat) :
    mainSeeds "increment" base clock images exprs combos reps =
      (List.range (images.count true * (exprs * (combos * reps)))).map
        (fun (k : Nat) => base + (k : Int)) ∧
    mainSeeds "increment" 100 clock [true] 1 1 3 = [100, 101, 102] := by
  have hmain : ∀ (b : Int) (imgs : List Bool) (e cb rp : Nat),
      mainSeeds "increment" b clock imgs e cb rp =
        (List.range (imgs.count true * (e * (cb * rp)))).map
          (fun (k : Nat) => b + (k : Int)) := by
    intro b imgs e cb rp
    unfold mainSeeds
    rw [runImageSeeds_increment]
    simp
  refine ⟨hmain base images exprs combos reps, ?_⟩
  rw [hmain 100 [true] 1 1 3]
  norm_num [List.range_succ]

theorem mark_as_used_mem (s : UsedAxes) (name : String) :
    Json.str name ∈ mark_as_used s name := by
  unfold mark_as_used
  by_cases h : Json.str name ∈ s
  · simp [h]
  · simp [h]

theorem mark_as_used_strings (s : UsedAxes) (name : String)
    (hstr : ∀ x ∈ s, ∃ t, x = Json.str t) :
    ∀ x ∈ mark_as_used s name, ∃ t, x = Json.str t := by
  intro x hx
  unfold mark_as_used at hx
  by_cases h : Json.str name ∈ s
  · rw [if_pos h] at hx
    exact hstr x hx
  · rw [if_neg h] at hx
    rcases List.mem_append.mp hx with hx | hx
    · exact hstr x hx
    · simp at hx
      exact ⟨name, hx⟩

/-- `sorted(...)` succeeds on an all-string set and permutes it. -/
theorem sortJsonStrings_of_strings (s : UsedAxes)
    (hstr : ∀ x ∈ s, ∃ t, x = Json.str t) :
    ∃ sorted, sortJsonStrings s = .ok sorted ∧
      (∀ x, x ∈ sorted ↔ x ∈ s) ∧ (∀ x ∈ sorted, ∃ t, x = Json.str t) := by
  unfold sortJsonStrings
  have hsome : ∀ x ∈ s,
      ((fun j => match j with | Json.str t => some t | _ => none) x).isSome := by
    intro x hx
    rcases hstr x hx with ⟨t, rfl⟩
    simp
  rcases mapOpt_isSome hsome with ⟨ss, hss⟩
  rw [hss]
  refine ⟨_, rfl, ?_, ?_⟩
  · intro x
    constructor
    · intro hx
      rcases List.mem_map.mp hx with ⟨t, ht, rfl⟩
      have ht' : t ∈ ss := (List.mem_insertionSort _).mp ht
      rcases mapOpt_mem hss t ht' with ⟨a, ha, hfa⟩
      rcases hstr a ha with ⟨u, rfl⟩
      simp at hfa
      subst hfa
      exact ha
    · intro hx
      rcases hstr x hx with ⟨t, rfl⟩
      have ht : t ∈ ss := mapOpt_mem_of_mem hss hx (by simp)
      exact List.mem_map.mpr ⟨t, (List.mem_insertionSort _).mpr ht, rfl⟩
  · intro x hx
    rcases List.mem_map.mp hx with ⟨t, _, rfl⟩
    exact ⟨t, rfl⟩

/-- `set(xs)` on an all-string JSON array: every element is hashable, so
the result is the deduplicated element set. -/
theorem pySetOf_arr_strings (xs : List Json)
    (hstr : ∀ x ∈ xs, ∃ t, x = Json.str t) :
    pySetOf (Json.arr xs) = .ok xs.dedup := by
  have hall : (xs.all fun x =>
      match x with | Json.arr _ => false | Json.obj _ => false | _ => true) = true := by
    rw [List.all_eq_true]
    intro x hx
    rcases hstr x hx with ⟨t, rfl⟩
    rfl
  unfold pySetOf
  simp [hall]

/-- C6: `mark_as_used(name)` followed by persisting and reloading the state
yields a used-axes set containing the name, and `get_remaining_axes` on any
axis-name list containing the name omits it. -/
theorem c6_mark_used_round_trip (s : UsedAxes) (name : String)
    (allNames : List String) (ts : String)
    (hstr : ∀ x ∈ s, ∃ t, x = Json.str t) (hmem : name ∈ allNames) :
    ∃ doc reloaded, state_save (mark_as_used s name) ts = .ok doc ∧
      state_load (StateFile.decoded doc) = .ok reloaded ∧
      Json.str name ∈ reloaded ∧
      name ∉ get_remaining_axes reloaded allNames := by
  have hstr1 := mark_as_used_strings s name hstr
  rcases sortJsonStrings_of_strings _ hstr1 with ⟨sorted, hs, hiff, hsstr⟩
  have hload : state_load (StateFile.decoded
      (Json.obj [("version", Json.str "1.0"),
                 ("used_axes", Json.arr sorted),
                 ("last_updated", Json.str ts),
                 ("total_used", Json.num (mark_as_used s name).length)])) =
      .ok sorted.dedup := by
    have hl : lookupKey [("version", Json.str "1.0"),
        ("used_axes", Json.arr sorted),
        ("last_updated", Json.str ts),
        ("total_used", Json.num (mark_as_used s name).length)] "used_axes" =
        some (Json.arr sorted) := by
      have h1 : ("version" : String) = "used_axes" ↔ False := by simp
      have h2 : ("used_axes" : String) = "used_axes" := rfl
      simp [lookupKey, h1, h2]
    show pySetOf ((lookupKey [("version", Json.str "1.0"),
        ("used_axes", Json.arr sorted),
        ("last_updated", Json.str ts),
        ("total_used", Json.num (mark_as_used s name).length)]
          "used_axes").getD (Json.arr [])) = .ok sorted.dedup
    rw [hl]
    exact pySetOf_arr_strings sorted hsstr
  refine ⟨_, sorted.dedup, ?_, hload, ?_, ?_⟩
  · unfold state_save
    rw [hs]
  · exact List.mem_dedup.mpr ((hiff _).mpr (mark_as_used_mem s name))
  · intro hin
    have := (List.mem_filter.mp hin).2
    simp only [Bool.not_eq_true', decide_eq_false_iff_not] at this
    exact this (List.mem_dedup.mpr ((hiff _).mpr (mark_as_used_mem s name)))

theorem c6_mark_used_round_trip_witness :
    ((∀ x ∈ ([Json.str "hair"] : UsedAxes), ∃ t, x = Json.str t) ∧
      "pose" ∈ ["pose", "hair", "color"]) ∧
    (∃ doc reloaded,
      state_save (mark_as_used [Json.str "hair"] "pose") "2026-10-12" = .ok doc ∧
      state_load (StateFile.decoded doc) = .ok reloaded ∧
      Json.str "pose" ∈ reloaded ∧
      "pose" ∉ get_remaining_axes reloaded ["pose", "hair", "color"]) :=
  ⟨⟨by intro x hx; simp at hx; exact ⟨"hair", hx⟩, by decide⟩,
   c6_mark_used_round_trip [Json.str "hair"] "pose" ["pose", "hair", "color"]
     "2026-10-12" (by intro x hx; simp at hx; exact ⟨"hair", hx⟩) (by decide)⟩

/-- A `mapOpt` over a list whose every element succeeds with a property
yields a same-length list of outputs all satisfying the property. -/
theorem mapOpt_exists_spec {α β : Type} {f : α → Option β} {P : β → Prop} :
    ∀ {l : List α}, (∀ a ∈ l, ∃ b, f a = some b ∧ P b) →
      ∃ l', mapOpt f l = some l' ∧ l'.length = l.length ∧ ∀ b ∈ l', P b := by
  intro l
  induction l with
  | nil => intro _; exact ⟨[], rfl, rfl, by simp⟩
  | cons a as ih =>
    intro h
    rcases h a (List.mem_cons_self _ _) with ⟨b, hb, hPb⟩
    rcases ih (fun x hx => h x (List.mem_cons_of_mem _ hx)) with ⟨bs, hbs, hlen, hP⟩
    refine ⟨b :: bs, by simp [mapOpt, hb, hbs], by simp [hlen], ?_⟩
    intro y hy
    rcases List.mem_cons.mp hy with rfl | hy
    · exact hPb
    · exact hP y hy

/-- With unique axis names, `get_axis_by_name` run on a member axis's name
resolves to that very axis. -/
theorem find_axis_self {axes : List PromptAxis} {ax : PromptAxis}
    (hnd : (axes.map (fun a => a.name)).Nodup) (hmem : ax ∈ axes) :
    axes.find? (fun a => a.name == ax.name) = some ax := by
  have hsome : (axes.find? (fun a => a.name == ax.name)).isSome := by
    rw [List.find?_isSome]
    exact ⟨ax, hmem, by simp⟩
  rcases Option.isSome_iff_exists.mp hsome with ⟨b, hb⟩
  have hbmem := List.mem_of_find?_eq_some hb
  have hbname : b.name = ax.name := by simpa using List.find?_some hb
  have hba : b = ax := List.inj_on_of_nodup_map hnd hbmem hmem hbname
  rw [hb, hba]

/-- The per-axis loop of `create_axis_combinations` succeeds under the
template invariants, producing one `(name, choices)` pair per axis whose
choice-list length is the axis's full size for the target and 1 otherwise. -/
theorem axisPairs_spec (pb : PromptBuilder) (target : String) (rs : Nat → Nat)
    (hnd : (pb.template.axes.map (fun a => a.name)).Nodup)
    (hax : ∀ a ∈ pb.template.axes, a.choices ≠ []) :
    ∀ (l : List PromptAxis), (∀ a ∈ l, a ∈ pb.template.axes) → ∀ (i : Nat),
      ∃ pairs, axisPairs pb target rs i l = some pairs ∧
        pairs.map Prod.fst = l.map (fun a => a.name) ∧
        pairs.map (fun nc => nc.2.length) =
          l.map (fun a => if a.name = target then a.choices.length else 1) := by
  intro l
  induction l with
  | nil => exact fun _ i => ⟨[], rfl, rfl, rfl⟩
  | cons a rest ih =>
    intro hsub i
    have hamem : a ∈ pb.template.axes := hsub a (List.mem_cons_self _ _)
    have hfind : pb.template.get_axis_by_name a.name = some a := by
      unfold PromptTemplate.get_axis_by_name
      exact find_axis_self hnd hamem
    have hchoice : ∃ cs,
        get_axis_choices pb a.name (decide (a.name = target)) (rs i) = some cs ∧
        cs.length = if a.name = target then a.choices.length else 1 := by
      unfold get_axis_choices
      rw [hfind]
      by_cases ht : a.name = target
      · exact ⟨a.get_all_values, by simp [ht],
          by simp [ht, PromptAxis.get_all_values]⟩
      · by_cases hr : pb.randomize_non_target
        · cases hp : pick_from_choices a.choices (rs i) with
          | wp t w => exact ⟨[t], by simp [ht, hr, hp], by simp [ht]⟩
          | s v => exact ⟨[v], by simp [ht, hr, hp], by simp [ht]⟩
        · cases hc : a.choices with
          | nil => exact absurd hc (hax a hamem)
          | cons c cs' =>
            refine ⟨[choiceText c], ?_, by simp [ht]⟩
            simp [ht, hr, PromptAxis.get_all_values, hc]
    rcases hchoice with ⟨cs, hcs, hlen⟩
    rcases ih (fun x hx => hsub x (List.mem_cons_of_mem _ hx)) (i + 1) with
      ⟨ps, hps, hfst, hlens⟩
    refine ⟨(a.name, cs) :: ps, ?_, ?_, ?_⟩
    · simp [axisPairs, hcs, hps]
    · simp [hfst]
    · simp [hlens, hlen]

theorem mapOpt_lookupA_self {β : Type} :
    ∀ (pairs : List (String × β)), (pairs.map Prod.fst).Nodup →
      mapOpt (fun n => lookupA pairs n) (pairs.map Prod.fst) =
        some (pairs.map Prod.snd) := by
  intro pairs
  induction pairs with
  | nil => intro _; rfl
  | cons kv rest ih =>
    intro hnd
    obtain ⟨k0, v0⟩ := kv
    simp only [List.map_cons, List.nodup_cons] at hnd
    have hhead : lookupA ((k0, v0) :: rest) k0 = some v0 := by
      simp [lookupA]
    have htail : mapOpt (fun n => lookupA ((k0, v0) :: rest) n)
        (rest.map Prod.fst) = mapOpt (fun n => lookupA rest n)
        (rest.map Prod.fst) := by
      apply mapOpt_congr
      intro n hn
      have hne : k0 ≠ n := fun h => hnd.1 (h ▸ hn)
      simp [lookupA, hne]
    simp only [List.map_cons, mapOpt, hhead, htail, ih hnd.2]

/-- Reading `[axis_choices_map[name] for name in axis_names]` back from the
folded dict returns exactly the per-axis choice lists, in axis order. -/
theorem lookup_cmap_lists {β : Type} (pairs : List (String × β))
    (hnd : (pairs.map Prod.fst).Nodup) :
    mapOpt (fun n => lookupA (pairs.foldl (fun m nc => setA m nc.1 nc.2) []) n)
      (pairs.map Prod.fst) = some (pairs.map Prod.snd) := by
  have hlk : ∀ k ∈ pairs.map Prod.fst,
      lookupA (pairs.foldl (fun m nc => setA m nc.1 nc.2) []) k =
        lookupA pairs k := by
    intro k hk
    rw [lookupA_foldl_nodup pairs [] k hnd]
    cases h : lookupA pairs k with
    | some v => rfl
    | none =>
      have := lookupA_isSome_of_mem hk
      rw [h] at this
      simp at this
  rw [mapOpt_congr hlk]
  exact mapOpt_lookupA_self pairs hnd

/-- With unique names, the product of per-axis factors (full size for the
target axis, 1 for the others) is the target axis's choice count. -/
theorem prod_target_factor :
    ∀ (axes : List PromptAxis) (tgt : PromptAxis) (target : String),
      (axes.map (fun a => a.name)).Nodup → tgt ∈ axes → tgt.name = target →
      (axes.map (fun a => if a.name = target then a.choices.length else 1)).prod =
        tgt.choices.length := by
  intro axes
  induction axes with
  | nil => intro tgt target _ hmem; simp at hmem
  | cons a rest ih =>
    intro tgt target hnd hmem htn
    simp only [List.map_cons, List.nodup_cons] at hnd
    simp only [List.map_cons, List.prod_cons]
    rcases List.mem_cons.mp hmem with rfl | hmem'
    · rw [if_pos htn]
      have hrest : ∀ b ∈ rest, b.name ≠ target := by
        intro b hb hbt
        exact hnd.1 (List.mem_map.mpr ⟨b, hb, by rw [hbt, ← htn]⟩)
      have hone : rest.map (fun a => if a.name = target then a.choices.length else 1) =
          rest.map (fun _ => 1) :=
        List.map_congr_left (fun b hb => if_neg (hrest b hb))
      rw [hone]
      simp
    · have hanot : a.name ≠ target := by
        intro hat
        exact hnd.1 (List.mem_map.mpr ⟨tgt, hmem', by rw [htn, ← hat]⟩)
      rw [if_neg hanot, ih tgt target hnd.2 hmem' htn]
      simp

/-- `create_axis_combinations` succeeds under the template invariants and
the combination count is the product of the per-axis factors. -/
theorem create_axis_combinations_spec (pb : PromptBuilder) (target : String)
    (rs : Nat → Nat)
    (hnd : (pb.template.axes.map (fun a => a.name)).Nodup)
    (hax : ∀ a ∈ pb.template.axes, a.choices ≠ []) :
    ∃ combos, create_axis_combinations pb target rs = some combos ∧
      combos.length = (pb.template.axes.map
        (fun a => if a.name = target then a.choices.length else 1)).prod := by
  rcases axisPairs_spec pb target rs hnd hax pb.template.axes (fun _ h => h) 0 with
    ⟨pairs, hp, hfst, hlens⟩
  have hnd' : (pairs.map Prod.fst).Nodup := by rw [hfst]; exact hnd
  simp only [create_axis_combinations]
  rw [hp]
  rw [show pb.template.axes.map (fun ax => ax.name) = pairs.map Prod.fst from
    hfst.symm]
  refine ⟨(listProd (pairs.map Prod.snd)).map
      (fun combo => comboDict (pairs.map Prod.fst) combo), ?_, ?_⟩
  · show (match mapOpt
          (fun n => lookupA (List.foldl (fun m nc => setA m nc.1 nc.2) [] pairs) n)
          (List.map Prod.fst pairs) with
        | none => none
        | some lists => some ((listProd lists).map
            (fun combo => comboDict (List.map Prod.fst pairs) combo))) =
      some ((listProd (pairs.map Prod.snd)).map
        (fun combo => comboDict (pairs.map Prod.fst) combo))
    rw [lookup_cmap_lists pairs hnd']
  · rw [List.length_map, listProd_length, List.map_map]
    have hcomp : List.map (List.length ∘ Prod.snd) pairs =
        pairs.map (fun nc => nc.2.length) := rfl
    rw [hcomp, hlens]

theorem samplerCombos_length (sc : SamplerChoices) :
    (samplerCombos sc).length = sc.steps.length * sc.cfg.length *
      sc.sampler_name.length * sc.scheduler.length := by
  have h3 : ∀ st ∈ sc.steps, ∀ c ∈ sc.cfg,
      (flatMapL (fun sn => sc.scheduler.map (fun sch => (st, c, sn, sch)))
        sc.sampler_name).length =
        sc.sampler_name.length * sc.scheduler.length := by
    intro st _ c _
    exact flatMapL_length (fun sn _ => by simp)
  have h2 : ∀ st ∈ sc.steps,
      (flatMapL (fun c =>
        flatMapL (fun sn => sc.scheduler.map (fun sch => (st, c, sn, sch)))
          sc.sampler_name) sc.cfg).length =
        sc.cfg.length * (sc.sampler_name.length * sc.scheduler.length) := by
    intro st hst
    exact flatMapL_length (fun c hc => h3 st hst c hc)
  unfold samplerCombos
  rw [flatMapL_length h2]
  ring

theorem loraCombos_length (lc : LoraChoices) :
    (loraCombos lc).length = lc.names.length * lc.model_strength.length *
      lc.clip_strength.length := by
  have h2 : ∀ nm ∈ lc.names,
      (flatMapL (fun ms => lc.clip_strength.map (fun cs => (nm, ms, cs)))
        lc.model_strength).length =
        lc.model_strength.length * lc.clip_strength.length := by
    intro nm _
    exact flatMapL_length (fun ms _ => by simp)
  unfold loraCombos
  rw [flatMapL_length h2]
  ring

theorem samplerCombos_mem (sc : SamplerChoices) (x : Int × ℚ × String × String)
    (hx : x ∈ samplerCombos sc) : x.1 ∈ sc.steps ∧ x.2.1 ∈ sc.cfg := by
  unfold samplerCombos at hx
  rcases flatMapL_mem.mp hx with ⟨st, hst, hx1⟩
  rcases flatMapL_mem.mp hx1 with ⟨c, hc, hx2⟩
  rcases flatMapL_mem.mp hx2 with ⟨sn, hsn, hx3⟩
  rcases List.mem_map.mp hx3 with ⟨sch, hsch, rfl⟩
  exact ⟨hst, hc⟩

theorem loraCombos_mem (lc : LoraChoices) (x : String × ℚ × ℚ)
    (hx : x ∈ loraCombos lc) : x.1 ∈ lc.names := by
  unfold loraCombos at hx
  rcases flatMapL_mem.mp hx with ⟨nm, hnm, hx1⟩
  rcases flatMapL_mem.mp hx1 with ⟨ms, hms, hx2⟩
  rcases List.mem_map.mp hx2 with ⟨cs, hcs, rfl⟩
  exact hnm

/-- C2: `generate_combinations` yields exactly `count_combinations` items,
and that count is `|target axis choices| × Π|sampler field choices| ×
Π|lora field choices|` — every non-target axis contributes factor 1.  The
two calls may consume different random draws (`rs1`, `rs2`); the count is
draw-independent. -/
theorem c2_generate_count (pb : PromptBuilder) (sc : SamplerChoices)
    (lc : LoraChoices) (target : String) (rs1 rs2 : Nat → Nat)
    (tgt : PromptAxis)
    (hnd : (pb.template.axes.map (fun a => a.name)).Nodup)
    (hax : ∀ a ∈ pb.template.axes, a.choices ≠ [])
    (hmem : tgt ∈ pb.template.axes) (htn : tgt.name = target)
    (hsteps : ∀ st ∈ sc.steps, 0 < st)
    (hcfg : ∀ c ∈ sc.cfg, 0 < c)
    (hlora : ∀ nm ∈ lc.names, strEndsWith nm ".safetensors" = true) :
    ∃ l c, generate_combinations pb sc lc target rs1 = some l ∧
      count_combinations pb sc lc target rs2 = some c ∧
      l.length = c ∧
      c = tgt.choices.length *
        (sc.steps.length * sc.cfg.length * sc.sampler_name.length *
          sc.scheduler.length) *
        (lc.names.length * lc.model_strength.length * lc.clip_strength.length) := by
  rcases create_axis_combinations_spec pb target rs1 hnd hax with ⟨c1, h1, hl1⟩
  rcases create_axis_combinations_spec pb target rs2 hnd hax with ⟨c2, h2, hl2⟩
  have houter : ∀ av ∈ c1, ∃ b,
      (fun av =>
        mapOpt (fun s4 =>
          mapOpt (fun l3 =>
            match mkSamplerConfig s4.1 s4.2.1 s4.2.2.1 s4.2.2.2 0 with
            | none => none
            | some samp =>
              match mkLoraConfig l3.1 l3.2.1 l3.2.2 with
              | none => none
              | some lora =>
                some (GenerationParams.mk (build_positive_prompt pb av)
                  (build_negative_prompt pb) samp lora target av))
            (loraCombos lc))
          (samplerCombos sc)) av = some b ∧
      (joinL b).length = (samplerCombos sc).length * (loraCombos lc).length := by
    intro av _
    have hmid : ∀ s4 ∈ samplerCombos sc, ∃ r2,
        (fun s4 => mapOpt (fun l3 =>
          match mkSamplerConfig s4.1 s4.2.1 s4.2.2.1 s4.2.2.2 0 with
          | none => none
          | some samp =>
            match mkLoraConfig l3.1 l3.2.1 l3.2.2 with
            | none => none
            | some lora =>
              some (GenerationParams.mk (build_positive_prompt pb av)
                (build_negative_prompt pb) samp lora target av))
          (loraCombos lc)) s4 = some r2 ∧
        r2.length = (loraCombos lc).length := by
      intro s4 hs4
      rcases samplerCombos_mem sc s4 hs4 with ⟨hst, hc⟩
      have hsmk : mkSamplerConfig s4.1 s4.2.1 s4.2.2.1 s4.2.2.2 0 =
          some ⟨s4.1, s4.2.1, s4.2.2.1, s4.2.2.2, 0⟩ := by
        unfold mkSamplerConfig
        rw [if_neg (not_le.mpr (hsteps s4.1 hst)),
          if_neg (not_le.mpr (hcfg s4.2.1 hc))]
      have hbase : ∀ l3 ∈ loraCombos lc, ∃ g,
          (match mkSamplerConfig s4.1 s4.2.1 s4.2.2.1 s4.2.2.2 0 with
          | none => none
          | some samp =>
            match mkLoraConfig l3.1 l3.2.1 l3.2.2 with
            | none => none
            | some lora =>
              some (GenerationParams.mk (build_positive_prompt pb av)
                (build_negative_prompt pb) samp lora target av)) = some g ∧
          True := by
        intro l3 hl3
        have hlmk : mkLoraConfig l3.1 l3.2.1 l3.2.2 =
            some ⟨l3.1, l3.2.1, l3.2.2⟩ := by
          unfold mkLoraConfig
          rw [if_pos (hlora l3.1 (loraCombos_mem lc l3 hl3))]
        rw [hsmk, hlmk]
        exact ⟨_, rfl, trivial⟩
      rcases mapOpt_exists_spec hbase with ⟨r2, hr2, hr2len, _⟩
      exact ⟨r2, hr2, hr2len⟩
    rcases mapOpt_exists_spec hmid with ⟨r, hr, hrlen, hrP⟩
    refine ⟨r, hr, ?_⟩
    rw [joinL_length hrP, hrlen]
  rcases mapOpt_exists_spec houter with ⟨nested, hnested, hnlen, hnP⟩
  have hcount : count_combinations pb sc lc target rs2 =
      some (c2.length *
        (sc.steps.length * sc.cfg.length * sc.sampler_name.length *
          sc.scheduler.length) *
        (lc.names.length * lc.model_strength.length * lc.clip_strength.length)) := by
    unfold count_combinations
    rw [h2]
  have hgen : generate_combinations pb sc lc target rs1 =
      some (joinL (nested.map (fun x => joinL x))) := by
    unfold generate_combinations
    rw [h1]
    show (match mapOpt (fun av =>
        mapOpt (fun s4 =>
          mapOpt (fun l3 =>
            match mkSamplerConfig s4.1 s4.2.1 s4.2.2.1 s4.2.2.2 0 with
            | none => none
            | some samp =>
              match mkLoraConfig l3.1 l3.2.1 l3.2.2 with
              | none => none
              | some lora =>
                some (GenerationParams.mk (build_positive_prompt pb av)
                  (build_negative_prompt pb) samp lora target av))
            (loraCombos lc))
          (samplerCombos sc)) c1 with
      | none => none
      | some nested2 => some (joinL (nested2.map (fun x => joinL x)))) =
      some (joinL (nested.map (fun x => joinL x)))
    rw [hnested]
  refine ⟨joinL (nested.map (fun x => joinL x)),
    c2.length *
      (sc.steps.length * sc.cfg.length * sc.sampler_name.length *
        sc.scheduler.length) *
      (lc.names.length * lc.model_strength.length * lc.clip_strength.length),
    hgen, hcount, ?_, ?_⟩
  · rw [joinL_length
      (n := (samplerCombos sc).length * (loraCombos lc).length) ?hall,
      List.length_map, hnlen]
    case hall =>
      intro z hz
      rcases List.mem_map.mp hz with ⟨b, hb, rfl⟩
      exact hnP b hb
    rw [samplerCombos_length, loraCombos_length, hl1, ← hl2]
    ring
  · rw [hl2, prod_target_factor pb.template.axes tgt target hnd hmem htn]

theorem c2_generate_count_witness :
    ((c2pb.template.axes.map (fun a => a.name)).Nodup ∧
     (∀ a ∈ c2pb.template.axes, a.choices ≠ []) ∧
     (⟨"hair", [ChoiceVal.s "long", ChoiceVal.s "short"]⟩ : PromptAxis) ∈
       c2pb.template.axes ∧
     (⟨"hair", [ChoiceVal.s "long", ChoiceVal.s "short"]⟩ : PromptAxis).name =
       "hair" ∧
     (∀ st ∈ c2sc.steps, 0 < st) ∧ (∀ c ∈ c2sc.cfg, 0 < c) ∧
     (∀ nm ∈ c2lc.names, strEndsWith nm ".safetensors" = true)) ∧
    (∃ l c, generate_combinations c2pb c2sc c2lc "hair" (fun _ => 0) = some l ∧
      count_combinations c2pb c2sc c2lc "hair" (fun _ => 0) = some c ∧
      l.length = c ∧
      c = (⟨"hair", [ChoiceVal.s "long", ChoiceVal.s "short"]⟩ :
          PromptAxis).choices.length *
        (c2sc.steps.length * c2sc.cfg.length * c2sc.sampler_name.length *
          c2sc.scheduler.length) *
        (c2lc.names.length * c2lc.model_strength.length *
          c2lc.clip_strength.length)) :=
  ⟨⟨by decide, by decide, by decide, by decide, by decide, by decide, by decide⟩,
   c2_generate_count c2pb c2sc c2lc "hair" (fun _ => 0) (fun _ => 0)
     ⟨"hair", [ChoiceVal.s "long", ChoiceVal.s "short"]⟩
     (by decide) (by decide) (by decide) (by decide) (by decide) (by decide)
     (by decide)⟩
